import Mathlib

/-!
Verification of the XSD synthesis and JSON/XML format-converter subsystem
(`src/packages/quicktype-core/src/language/XSD.ts`).

The development shallowly embeds the converter (`XSDTypes` coercions,
`parseUnion`, `parsePrimitiveKind`, `XMLFormatConverterHandler.parseJSON`,
`XMLFormatConverterHandler.parseXMLtoJSON`) and the renderer
(`XSDRenderer.renderTypes` with `renderArray` / `renderClass` / `renderUnion`,
and `XSDRenderer.renderElements`).

Modelling conventions:
* JavaScript values reachable by the converter are modelled by `JValue`
  (null, booleans, numbers, strings, arrays, objects).  Numbers are modelled
  as integers: every numeric literal appearing in the claims and in the
  concrete scenarios of the specification is an integer, and no claim
  depends on fractional values.  Consequently the numeric fragment of the
  JS string-to-number coercion (`strToNumber`) covers optional-sign decimal
  integer strings; fraction/exponent/hex forms are outside the modelled
  domain.
* JS `Map`s are modelled as insertion-ordered association lists; `Map.get`
  is `alookup`, `Map.set` is `aset` (replace in place, else append), which
  matches the JS iteration-order semantics.
* A fatal `panic(...)` (and `defined(...)`) is `Except.error`.  Messages
  reproduce the source template strings, except that interpolations of the
  offending *value* (JS `${value}`) are omitted from the message text.
* An uncaught JavaScript `TypeError` (e.g. `Object.keys(null)`) is
  modelled by `CoerceResult.jsError`, and by an `Except.error typeErrorMsg`
  where it propagates.
* Per the `DateTimeRecognizer` interface of `DateTime.ts` (whose methods
  take strings), the date/time/uri recognizers are modelled as abstract
  predicates on strings; non-string values are outside the recognizer
  domain and unrecognized.
-/

/-- Type kinds of the quicktype type graph, as enumerated in §3 of the
specification and dispatched on by `XSD.ts` (`TypeKind` of `../Type`). -/
inductive TypeKind where
  | kNone | kAny | kNull | kBool | kInteger | kDouble | kString
  | kDate | kTime | kDateTime | kUri | kIntegerString | kBoolString
  | kArray | kClass | kUnion | kMap | kObject | kEnum
deriving DecidableEq, Repr

/-- Modelled from the spec: `isPrimitiveStringTypeKind` of `../Type` (the file
is not under `src/`); string and the transformed-string kinds of §3. -/
def isPrimitiveStringTypeKind : TypeKind → Bool
  | .kString | .kDate | .kTime | .kDateTime | .kUri
  | .kIntegerString | .kBoolString => true
  | _ => false

/-- Modelled from the spec: `isPrimitiveTypeKind` of `../Type` (the file is
not under `src/`); the primitive kinds are the string-like kinds plus the
number kinds and `none`, `any`, `null`, `bool` (§3, §4.8 of the spec). -/
def isPrimitiveTypeKind (k : TypeKind) : Bool :=
  isPrimitiveStringTypeKind k || k == .kInteger || k == .kDouble ||
    k == .kNone || k == .kAny || k == .kNull || k == .kBool

/-- Rendering of a kind into its TS string form, used in error messages
(the `${kind}` interpolations of `XSD.ts`). -/
def kindName : TypeKind → String
  | .kNone => "none"
  | .kAny => "any"
  | .kNull => "null"
  | .kBool => "bool"
  | .kInteger => "integer"
  | .kDouble => "double"
  | .kString => "string"
  | .kDate => "date"
  | .kTime => "time"
  | .kDateTime => "date-time"
  | .kUri => "uri"
  | .kIntegerString => "integer-string"
  | .kBoolString => "bool-string"
  | .kArray => "array"
  | .kClass => "class"
  | .kUnion => "union"
  | .kMap => "map"
  | .kObject => "object"
  | .kEnum => "enum"

/-- JSON/JS values processed by the format converter. -/
inductive JValue where
  | null
  | bool (b : Bool)
  | num (n : Int)
  | str (s : String)
  | arr (items : List JValue)
  | obj (fields : List (String × JValue))
deriving Repr

/-- Association-list lookup modelling JS `Map.get` (first match wins; keys
are unique in a JS `Map`). -/
def alookup {κ α : Type} [DecidableEq κ] : List (κ × α) → κ → Option α
  | [], _ => Option.none
  | (k, v) :: rest, key => if k = key then some v else alookup rest key

/-- Association-list update modelling JS `Map.set`: replaces the binding in
place if the key is present, otherwise appends (JS insertion order). -/
def aset {κ α : Type} [DecidableEq κ] : List (κ × α) → κ → α → List (κ × α)
  | [], key, v => [(key, v)]
  | (k, w) :: rest, key, v =>
    if k = key then (k, v) :: rest else (k, w) :: aset rest key v

/-- Digit-run parser for the integer fragment of JS `Number(string)`:
all characters must be decimal digits and the run must be nonempty. -/
def parseDigits : List Char → Option Nat
  | [] => Option.none
  | cs =>
    cs.foldl
      (fun acc c => acc.bind fun a =>
        if c.isDigit then some (a * 10 + (c.toNat - 48)) else Option.none)
      (some 0)

/-- Whitespace trim on a character list (both ends), modelling the trim JS
`Number(string)` performs before parsing. -/
def jsTrimChars (cs : List Char) : List Char :=
  ((cs.dropWhile Char.isWhitespace).reverse.dropWhile Char.isWhitespace).reverse

/-- JS `Number(string)` on the modelled (integer) fragment: the string is
trimmed, the empty string is `0`, an optional sign precedes a digit run;
everything else is NaN (`none`). -/
def strToNumber (s : String) : Option Int :=
  match jsTrimChars s.data with
  | [] => some 0
  | c :: cs =>
    if c = '-' then (parseDigits cs).map (fun n => -(n : Int))
    else if c = '+' then (parseDigits cs).map (fun n => (n : Int))
    else (parseDigits (c :: cs)).map (fun n => (n : Int))

/-- JS `ToNumber` (the `+value` / `isNaN(+value)` / `Number(value)` coercion
used by `XSD.ts`): `none` is NaN.  Arrays are modelled to depth one (a
singleton array coerces through its element's string form; `[true]` and
nested arrays are NaN in the modelled fragment); objects are NaN. -/
def toNumber : JValue → Option Int
  | .null => some 0
  | .bool b => some (if b then 1 else 0)
  | .num n => some n
  | .str s => strToNumber s
  | .arr [] => some 0
  | .arr [.null] => some 0
  | .arr [.num n] => some n
  | .arr [.str s] => strToNumber s
  | .arr _ => Option.none
  | .obj _ => Option.none

/-- The string-format recognizer capability consumed by the converter
(`DateTimeRecognizer` of `DateTime.ts` plus `isURI` of
`../attributes/StringTypes`). -/
structure Recognizers where
  isDate : String → Bool
  isTime : String → Bool
  isDateTime : String → Bool
  isUri : String → Bool

/-- A recognizer that accepts nothing; used for concrete evaluations. -/
def rec0 : Recognizers := ⟨fun _ => false, fun _ => false, fun _ => false, fun _ => false⟩

/-- Result of a JS coercion function: a returned value, a returned
`undefined`, or an uncaught `TypeError`. -/
inductive CoerceResult where
  | val (v : JValue)
  | undefVal
  | jsError
deriving Repr

/-- Message of the `TypeError` thrown by `Object.keys(null)`. -/
def typeErrorMsg : String := "TypeError: Cannot convert undefined or null to object"

/-- Embedding of `XSDTypes.getPrimitiveKindXMLValue` (XSD.ts lines 635-684):
the JSON-to-XML coercion table.  Case order and guards mirror the TS
`switch`; kinds without a case fall through to `undefined`. -/
def getPrimitiveKindXMLValue (r : Recognizers) (value : JValue) (kind : TypeKind) : CoerceResult :=
  match kind with
  | .kIntegerString | .kDouble | .kInteger =>
    match toNumber value with
    | some n => .val (.str (toString n))
    | Option.none => .undefVal
  | .kBoolString | .kBool =>
    match value with
    | .bool b => .val (.str (cond b "true" "false"))
    | .str s =>
      if s = "true" then .val (.str "true")
      else if s = "false" then .val (.str "false")
      else .undefVal
    | _ => .undefVal
  | .kDate =>
    match value with
    | .str s => if r.isDate s then .val (.str s) else .undefVal
    | _ => .undefVal
  | .kTime =>
    match value with
    | .str s => if r.isTime s then .val (.str s) else .undefVal
    | _ => .undefVal
  | .kDateTime =>
    match value with
    | .str s => if r.isDateTime s then .val (.str s) else .undefVal
    | _ => .undefVal
  | .kUri =>
    match value with
    | .str s => if r.isUri s then .val (.str s) else .undefVal
    | _ => .undefVal
  | .kAny | .kNone => .val (.str "")
  | .kNull =>
    match value with
    | .null => .val (.str "")
    | _ => .undefVal
  | .kString =>
    match value with
    | .str s => .val (.str s)
    | _ => .undefVal
  | _ => .undefVal

/-- Embedding of `XSDTypes.getPrimitiveKindJSONValue` (XSD.ts lines 686-747):
the XML-to-JSON coercion table.  In the `string` case the source tests
`typeof value === 'object' && Object.keys(value).length === 0`; since
`typeof null` is `'object'`, `Object.keys(null)` throws a `TypeError`
(`jsError`).  In the `none`/`null` case the loose `value == null` check
short-circuits before `Object.keys`, so `null` is safe there. -/
def getPrimitiveKindJSONValue (r : Recognizers) (value : JValue) (kind : TypeKind) : CoerceResult :=
  match kind with
  | .kDouble | .kInteger =>
    match toNumber value with
    | some n => .val (.num n)
    | Option.none => .undefVal
  | .kIntegerString =>
    match toNumber value with
    | some n => .val (.str (toString n))
    | Option.none => .undefVal
  | .kBool =>
    match value with
    | .bool b => .val (.bool b)
    | .str s =>
      if s = "true" then .val (.bool true)
      else if s = "false" then .val (.bool false)
      else .undefVal
    | _ => .undefVal
  | .kBoolString =>
    match value with
    | .bool b => .val (.str (cond b "true" "false"))
    | .str s =>
      if s = "true" then .val (.str "true")
      else if s = "false" then .val (.str "false")
      else .undefVal
    | _ => .undefVal
  | .kDate =>
    match value with
    | .str s => if r.isDate s then .val (.str s) else .undefVal
    | _ => .undefVal
  | .kTime =>
    match value with
    | .str s => if r.isTime s then .val (.str s) else .undefVal
    | _ => .undefVal
  | .kDateTime =>
    match value with
    | .str s => if r.isDateTime s then .val (.str s) else .undefVal
    | _ => .undefVal
  | .kUri =>
    match value with
    | .str s => if r.isUri s then .val (.str s) else .undefVal
    | _ => .undefVal
  | .kAny => .val value
  | .kNone | .kNull =>
    match value with
    | .null => .val .null
    | .obj [] => .val .null
    | .arr [] => .val .null
    | _ => .undefVal
  | .kString =>
    match value with
    | .str s => .val (.str s)
    | .null => .jsError
    | .obj [] => .val (.str "")
    | .arr [] => .val (.str "")
    | _ => .undefVal
  | _ => .undefVal

/-- Direction selector of the converter (`ConvertFormatType` in XSD.ts). -/
inductive ConvertFormatType where
  | XML
  | JSON
deriving DecidableEq, Repr

/-- The coercion selected by `format === 'XML' ? getPrimitiveKindXMLValue :
getPrimitiveKindJSONValue` (XSD.ts lines 750-751 and 765-766). -/
def coerceValue (r : Recognizers) (format : ConvertFormatType) (value : JValue) (kind : TypeKind) :
    CoerceResult :=
  match format with
  | .XML => getPrimitiveKindXMLValue r value kind
  | .JSON => getPrimitiveKindJSONValue r value kind

/-- Embedding of `XSDTypes.parsePrimitiveKind` (XSD.ts lines 764-775):
panics when the selected coercion returns `undefined`; a `TypeError`
raised by the coercion propagates. -/
def parsePrimitiveKind (r : Recognizers) (value : JValue) (kind : TypeKind)
    (format : ConvertFormatType) : Except String JValue :=
  match coerceValue r format value kind with
  | .val v => .ok v
  | .undefVal => .error ("Failed parse to XML with type " ++ kindName kind)
  | .jsError => .error typeErrorMsg

/-- Scan of `kinds.find(kind => getPrimitiveKindValue(value, kind) !==
undefined)` inside `parseUnion`: returns the first kind whose coercion
returns a value; a `TypeError` thrown by a coercion aborts the scan. -/
def findAccept (r : Recognizers) (format : ConvertFormatType) (value : JValue) :
    List TypeKind → Except String (Option TypeKind)
  | [] => .ok Option.none
  | k :: ks =>
    match coerceValue r format value k with
    | .val _ => .ok (some k)
    | .undefVal => findAccept r format value ks
    | .jsError => .error typeErrorMsg

/-- Per-type-name class-property record of `XSDTypes` (`ClassProp`). -/
structure ClassProp where
  type : String
  isOptional : Bool
  kind : TypeKind
deriving Repr

/-- Per-type-name array-item record of `XSDTypes` (`ArrayItem`). -/
structure ArrayItem where
  itemType : String
  itemTag : String
  kind : TypeKind
deriving Repr

/-- The three path-indexed dictionaries of `XSDTypes`
(`objectTypesByPath`, `arrayTypesByPath`, `unionTypesByPath`). -/
structure Dicts where
  objectTypesByPath : List (String × List (String × ClassProp))
  arrayTypesByPath : List (String × ArrayItem)
  unionTypesByPath : List (String × List TypeKind)

/-- Embedding of `XSDTypes.getUnionType` (XSD.ts lines 818-826). -/
def getUnionType (d : Dicts) (unionPath : String) : Option (List TypeKind) :=
  alookup d.unionTypesByPath unionPath

/-- Embedding of `XSDTypes.getClassType` (XSD.ts lines 828-835). -/
def getClassType (d : Dicts) (objectPath : String) : Option (List (String × ClassProp)) :=
  alookup d.objectTypesByPath objectPath

/-- Embedding of `XSDTypes.getArrayType` (XSD.ts lines 837-844). -/
def getArrayType (d : Dicts) (arrayPath : String) : Option ArrayItem :=
  alookup d.arrayTypesByPath arrayPath

/-- Embedding of `XSDTypes.parseUnion` (XSD.ts lines 749-762): look up the
union member kinds stored for the path (`defined(...)` panics when the
path is absent), select the first member kind whose coercion accepts the
value, panic when none does, and re-run the coercion through
`parsePrimitiveKind`. -/
def parseUnion (d : Dicts) (r : Recognizers) (value : JValue) (unionPath : String)
    (format : ConvertFormatType) : Except String JValue :=
  match alookup d.unionTypesByPath unionPath with
  | Option.none => .error "Failed to get defined value"
  | some kinds =>
    match findAccept r format value kinds with
    | .error e => .error e
    | .ok Option.none => .error "Failed parse to XML with type union"
    | .ok (some k) => parsePrimitiveKind r value k format

/-- C6 counterexample input: the JSON-direction coercion applied to `null`
at kind `string` hits `Object.keys(null)` and raises a `TypeError`,
refuting "total ... (never raising)". -/
theorem c6_counterexample :
    getPrimitiveKindJSONValue rec0 JValue.null TypeKind.kString = CoerceResult.jsError := rfl

/-- C6 (amended): the XML-direction coercion is total and never raises; the
JSON-direction coercion raises exactly on value `null` with kind `string`
(through `Object.keys(null)`) and otherwise returns a value or undefined;
`parsePrimitiveKind` fails exactly when the selected coercion does not
return a value (i.e. returns undefined or raises). -/
theorem c6_coercion_totality :
    (∀ (r : Recognizers) (v : JValue) (k : TypeKind),
      getPrimitiveKindXMLValue r v k ≠ CoerceResult.jsError) ∧
    (∀ (r : Recognizers) (v : JValue) (k : TypeKind),
      getPrimitiveKindJSONValue r v k = CoerceResult.jsError ↔
        (v = JValue.null ∧ k = TypeKind.kString)) ∧
    (∀ (r : Recognizers) (v : JValue) (k : TypeKind) (f : ConvertFormatType),
      (∃ e, parsePrimitiveKind r v k f = Except.error e) ↔
        ∀ w, coerceValue r f v k ≠ CoerceResult.val w) := by
  refine ⟨?_, ?_, ?_⟩
  · intro r v k
    cases k <;> cases v <;>
      (simp only [getPrimitiveKindXMLValue]; repeat' split) <;> simp_all
  · intro r v k
    cases k <;> cases v <;>
      (simp only [getPrimitiveKindJSONValue]; repeat' split) <;> simp_all
  · intro r v k f
    cases h : coerceValue r f v k <;>
      simp [parsePrimitiveKind, h]

/-- C8: for the kinds `integer`, `double` and `integer-string`, the XML
coercion accepts exactly the values whose JS numeric coercion is not NaN;
in particular `null` and the empty string yield `"0"`, `true` yields `"1"`
and `false` yields `"0"`. -/
theorem c8_numeric_xml_coercion :
    ∀ (r : Recognizers) (k : TypeKind),
      (k = TypeKind.kInteger ∨ k = TypeKind.kDouble ∨ k = TypeKind.kIntegerString) →
      (∀ v : JValue,
        (∃ s, getPrimitiveKindXMLValue r v k = CoerceResult.val (JValue.str s)) ↔
          (toNumber v).isSome) ∧
      getPrimitiveKindXMLValue r JValue.null k = CoerceResult.val (JValue.str "0") ∧
      getPrimitiveKindXMLValue r (JValue.bool true) k = CoerceResult.val (JValue.str "1") ∧
      getPrimitiveKindXMLValue r (JValue.bool false) k = CoerceResult.val (JValue.str "0") ∧
      getPrimitiveKindXMLValue r (JValue.str "") k = CoerceResult.val (JValue.str "0") := by
  intro r k hk
  have main : ∀ v : JValue,
      (∃ s, getPrimitiveKindXMLValue r v k = CoerceResult.val (JValue.str s)) ↔
        (toNumber v).isSome := by
    intro v
    rcases hk with h | h | h <;> subst h <;>
      cases hnum : toNumber v <;>
      simp [getPrimitiveKindXMLValue, hnum]
  refine ⟨main, ?_, ?_, ?_, ?_⟩ <;>
    rcases hk with h | h | h <;> subst h <;> rfl

/-- C8 witness: the characterization at kind `integer` with the trivial
recognizer. -/
theorem c8_numeric_xml_coercion_witness :
    (∀ v : JValue,
      (∃ s, getPrimitiveKindXMLValue rec0 v TypeKind.kInteger = CoerceResult.val (JValue.str s)) ↔
        (toNumber v).isSome) ∧
    getPrimitiveKindXMLValue rec0 JValue.null TypeKind.kInteger = CoerceResult.val (JValue.str "0") ∧
    getPrimitiveKindXMLValue rec0 (JValue.bool true) TypeKind.kInteger =
      CoerceResult.val (JValue.str "1") ∧
    getPrimitiveKindXMLValue rec0 (JValue.bool false) TypeKind.kInteger =
      CoerceResult.val (JValue.str "0") ∧
    getPrimitiveKindXMLValue rec0 (JValue.str "") TypeKind.kInteger =
      CoerceResult.val (JValue.str "0") :=
  c8_numeric_xml_coercion rec0 TypeKind.kInteger (Or.inl rfl)

/-- Specification of the `kinds.find(...)` scan inside `parseUnion`: when no
coercion raises along the scanned prefix, either some first member accepts
the value, or all members return undefined. -/
theorem findAccept_spec (r : Recognizers) (f : ConvertFormatType) (v : JValue) :
    ∀ kinds : List TypeKind,
      (∀ k ∈ kinds, coerceValue r f v k ≠ CoerceResult.jsError) →
      (∃ pre k post w, kinds = pre ++ k :: post ∧
        (∀ k' ∈ pre, coerceValue r f v k' = CoerceResult.undefVal) ∧
        coerceValue r f v k = CoerceResult.val w ∧
        findAccept r f v kinds = Except.ok (some k)) ∨
      ((∀ k ∈ kinds, coerceValue r f v k = CoerceResult.undefVal) ∧
        findAccept r f v kinds = Except.ok Option.none) := by
  intro kinds
  induction kinds with
  | nil =>
    intro _
    exact Or.inr ⟨by simp, rfl⟩
  | cons k ks ih =>
    intro hsafe
    cases h : coerceValue r f v k with
    | val w =>
      exact Or.inl ⟨[], k, ks, w, rfl, by simp, h, by simp [findAccept, h]⟩
    | undefVal =>
      have hsafe' : ∀ k' ∈ ks, coerceValue r f v k' ≠ CoerceResult.jsError :=
        fun k' hk' => hsafe k' (List.mem_cons_of_mem _ hk')
      rcases ih hsafe' with ⟨pre, k', post, w, hsplit, hpre, hval, hfind⟩ | ⟨hall, hfind⟩
      · refine Or.inl ⟨k :: pre, k', post, w, by simp [hsplit], ?_, hval, ?_⟩
        · intro k'' hk''
          rcases List.mem_cons.mp hk'' with h' | h'
          · rw [h']; exact h
          · exact hpre k'' h'
        · simpa [findAccept, h] using hfind
      · refine Or.inr ⟨?_, by simpa [findAccept, h] using hfind⟩
        intro k'' hk''
        rcases List.mem_cons.mp hk'' with h' | h'
        · rw [h']; exact h
        · exact hall k'' h'
    | jsError =>
      exact absurd h (hsafe k (List.mem_cons_self _ _))

/-- C7 (amended): whenever the union member list stored for the path is
found and no scanned coercion raises (the JSON-direction `string` coercion
raises on `null`, see the C6 analysis), `parseUnion` converts by the first
member kind, in stored order, whose coercion accepts the value, and panics
(malformed-input) when no member accepts. -/
theorem c7_parseUnion_first_accepting :
    ∀ (d : Dicts) (r : Recognizers) (v : JValue) (p : String) (f : ConvertFormatType)
      (kinds : List TypeKind),
      alookup d.unionTypesByPath p = some kinds →
      (∀ k ∈ kinds, coerceValue r f v k ≠ CoerceResult.jsError) →
      (∃ pre k post w, kinds = pre ++ k :: post ∧
        (∀ k' ∈ pre, coerceValue r f v k' = CoerceResult.undefVal) ∧
        coerceValue r f v k = CoerceResult.val w ∧
        parseUnion d r v p f = Except.ok w) ∨
      ((∀ k ∈ kinds, coerceValue r f v k = CoerceResult.undefVal) ∧
        parseUnion d r v p f = Except.error "Failed parse to XML with type union") := by
  intro d r v p f kinds hlook hsafe
  rcases findAccept_spec r f v kinds hsafe with
    ⟨pre, k, post, w, hsplit, hpre, hval, hfind⟩ | ⟨hall, hfind⟩
  · refine Or.inl ⟨pre, k, post, w, hsplit, hpre, hval, ?_⟩
    simp only [parseUnion, hlook, hfind, parsePrimitiveKind, hval]
  · refine Or.inr ⟨hall, ?_⟩
    simp only [parseUnion, hlook, hfind]

/-- C7 counterexample input: the union at path "u" stores member kinds
`[string, null]` and the JSON-direction value is `null`.  The `null`
member's coercion accepts the value (second conjunct), yet `parseUnion`
does not select it: the scan first evaluates the `string` member's
coercion, which raises a `TypeError` on `null`, so the conversion aborts
with the `TypeError` instead of converting by the first accepting member
kind. -/
theorem c7_counterexample :
    parseUnion ⟨[], [], [("u", [TypeKind.kString, TypeKind.kNull])]⟩ rec0 JValue.null "u"
        ConvertFormatType.JSON = Except.error typeErrorMsg ∧
    getPrimitiveKindJSONValue rec0 JValue.null TypeKind.kNull = CoerceResult.val JValue.null :=
  ⟨rfl, rfl⟩

/-- C7 witness: the amended statement instantiated at the union
`[bool, integer]` with XML-direction value `3`: the scan skips the
non-accepting `bool` member and converts by the `integer` member. -/
theorem c7_parseUnion_first_accepting_witness :
    (∃ pre k post w, [TypeKind.kBool, TypeKind.kInteger] = pre ++ k :: post ∧
      (∀ k' ∈ pre, coerceValue rec0 ConvertFormatType.XML (JValue.num 3) k' =
        CoerceResult.undefVal) ∧
      coerceValue rec0 ConvertFormatType.XML (JValue.num 3) k = CoerceResult.val w ∧
      parseUnion ⟨[], [], [("u", [TypeKind.kBool, TypeKind.kInteger])]⟩ rec0 (JValue.num 3) "u"
        ConvertFormatType.XML = Except.ok w) ∨
    ((∀ k ∈ [TypeKind.kBool, TypeKind.kInteger],
        coerceValue rec0 ConvertFormatType.XML (JValue.num 3) k = CoerceResult.undefVal) ∧
      parseUnion ⟨[], [], [("u", [TypeKind.kBool, TypeKind.kInteger])]⟩ rec0 (JValue.num 3) "u"
        ConvertFormatType.XML = Except.error "Failed parse to XML with type union") :=
  c7_parseUnion_first_accepting _ rec0 (JValue.num 3) "u" ConvertFormatType.XML
    [TypeKind.kBool, TypeKind.kInteger] rfl
    (fun k hk => by
      fin_cases hk <;> (intro h; exact CoerceResult.noConfusion h))

/-- XML element tree as built by `parseJSON` through the xmlbuilder2
builder (`.ele`, `.txt`, `.att`). -/
inductive XTree where
  | elem (tag : String) (attrs : List (String × String)) (children : List XTree)
  | text (s : String)
deriving Repr

/-- Tag of a tree node (text nodes have none). -/
def tagOfTree : XTree → String
  | .elem tag _ _ => tag
  | .text _ => ""

/-- Whether a tree node is an element. -/
def isElemTree : XTree → Bool
  | .elem _ _ _ => true
  | .text _ => false

/-- JS `x?.toString() ?? ''` applied to the converter's primitive results.
Coercion results are strings, numbers, booleans or null (see
`getPrimitiveKindXMLValue`); the array/object cases are unreachable there
and mapped to their shallow JS string forms. -/
def txtOf : JValue → String
  | .str s => s
  | .num n => toString n
  | .bool b => cond b "true" "false"
  | .null => ""
  | .arr _ => ""
  | .obj _ => "[object Object]"

/-- Path extension: `currentPath ? currentPath + '.' + objectTag :
objectTag` (both converter walkers). -/
def joinPath (parentPath tag : String) : String :=
  if parentPath = "" then tag else parentPath ++ "." ++ tag

/-- Leading `@` test for XML attribute entries (`propKey.startsWith('@')`). -/
def startsWithAtSign (s : String) : Bool :=
  match s.data with
  | c :: _ => c = '@'
  | [] => false

/-- JS `Object.entries` on the object-typed values reaching the class
branches: objects yield their fields, arrays yield index-keyed entries. -/
def entriesOf : JValue → List (String × JValue)
  | .obj fields => fields
  | .arr items => items.enum.map fun p => (toString p.1, p.2)
  | _ => []

/-- JS bracket indexing `v[key]` on the values reaching the array branch
(`undefined` is `none`). -/
def jsIndex (v : JValue) (key : String) : Option JValue :=
  match v with
  | .obj fields => alookup fields key
  | .arr items => (parseDigits key.data).bind fun i => items.get? i
  | _ => Option.none

/-- JS `key in v` on the object-typed values used by
`isValidClassPropsInXMLObject` and `getXMLObjectKind`. -/
def inOp (v : JValue) (key : String) : Bool :=
  match v with
  | .obj fields => (alookup fields key).isSome
  | .arr items => ((parseDigits key.data).map (fun i => decide (i < items.length))).getD false
  | _ => false

/-- Embedding of `XSDTypes.isValidClassPropsInXMLObject` (XSD.ts lines
777-800): every non-optional declared property must be present, and every
declared property's kind must resolve in the corresponding by-path
dictionary (or be primitive). -/
def isValidClassPropsInXMLObject (d : Dicts) (currentXMLObject : JValue) (path : String) : Bool :=
  match getClassType d path with
  | Option.none => false
  | some classData =>
    classData.all fun pd =>
      let propPath := path ++ "." ++ pd.1
      if !(inOp currentXMLObject pd.1) && !pd.2.isOptional then false
      else if pd.2.kind = .kUnion then (getUnionType d propPath).isSome
      else if pd.2.kind = .kArray then (getArrayType d propPath).isSome
      else if pd.2.kind = .kClass then (getClassType d propPath).isSome
      else isPrimitiveTypeKind pd.2.kind

/-- Embedding of `XSDTypes.getXMLObjectKind` (XSD.ts lines 802-816). -/
def getXMLObjectKind (d : Dicts) (currentObject : JValue) (path : String) : Option TypeKind :=
  if (getUnionType d path).isSome then some .kUnion
  else if (match getArrayType d path with
    | some arrayData => inOp currentObject arrayData.itemTag
    | Option.none => false) then some .kArray
  else if (getClassType d path).isSome && isValidClassPropsInXMLObject d currentObject path then
    some .kClass
  else Option.none

/-- Error-propagating map over a list (the `forEach` loops of both walkers:
a panic thrown inside the callback aborts the whole loop). -/
def exceptMap {α β : Type} (step : α → Except String β) : List α → Except String (List β)
  | [] => .ok []
  | x :: rest =>
    match step x with
    | .error e => .error e
    | .ok y =>
      match exceptMap step rest with
      | .error e => .error e
      | .ok ys => .ok (y :: ys)

/-- Class-property loop of `parseJSON` (XSD.ts lines 227-233): iterate the
*input object's* entries in order; panic when a present property is not
declared in the class structure; recurse otherwise.  No check that
declared non-optional properties are present is performed. -/
def parseJSONClassProps (objectStructure : List (String × ClassProp)) (currentPath : String)
    (step : JValue → String → TypeKind → Except String XTree) :
    List (String × JValue) → Except String (List XTree)
  | [] => .ok []
  | (propName, propValue) :: rest =>
    match alookup objectStructure propName with
    | Option.none =>
      .error ("Failed to find " ++ propName ++ " in " ++ currentPath ++ " object structure")
    | some propStructure =>
      match step propValue propName propStructure.kind with
      | .error e => .error e
      | .ok child =>
        match parseJSONClassProps objectStructure currentPath step rest with
        | .error e => .error e
        | .ok children => .ok (child :: children)

/-- Embedding of `parseCurrentObject` inside
`XMLFormatConverterHandler.parseJSON` (XSD.ts lines 206-244), with explicit
fuel (the source recursion descends the JSON value).  The branch order
mirrors the source: union first, then `Array.isArray(v) && kind==='array'`,
then `typeof v==='object' && kind==='class'` (which also admits arrays and
`null`; `Object.entries(null)` raises), then primitive kinds, else panic. -/
def parseJSONFuel (d : Dicts) (r : Recognizers) :
    Nat → JValue → String → String → TypeKind → Except String XTree
  | 0, _, _, _, _ => .error "out of fuel"
  | fuel + 1, currentObject, objectTag, parentPath, kind =>
    let currentPath := joinPath parentPath objectTag
    match currentObject, kind with
    | v, .kUnion =>
      match parseUnion d r v currentPath .XML with
      | .error e => .error e
      | .ok rv => .ok (.elem objectTag [] [.text (txtOf rv)])
    | .arr items, .kArray =>
      match getArrayType d currentPath with
      | Option.none => .error ("Array with path " ++ currentPath ++ " not found")
      | some arrayItem =>
        match exceptMap
            (fun v => parseJSONFuel d r fuel v arrayItem.itemTag currentPath arrayItem.kind)
            items with
        | .error e => .error e
        | .ok children => .ok (.elem objectTag [] children)
    | .obj fields, .kClass =>
      match getClassType d currentPath with
      | Option.none => .error ("Object with path " ++ currentPath ++ " not found")
      | some objectStructure =>
        match parseJSONClassProps objectStructure currentPath
            (fun v tag k => parseJSONFuel d r fuel v tag currentPath k) fields with
        | .error e => .error e
        | .ok children => .ok (.elem objectTag [] children)
    | .arr items, .kClass =>
      match getClassType d currentPath with
      | Option.none => .error ("Object with path " ++ currentPath ++ " not found")
      | some objectStructure =>
        match parseJSONClassProps objectStructure currentPath
            (fun v tag k => parseJSONFuel d r fuel v tag currentPath k)
            (entriesOf (.arr items)) with
        | .error e => .error e
        | .ok children => .ok (.elem objectTag [] children)
    | .null, .kClass =>
      match getClassType d currentPath with
      | Option.none => .error ("Object with path " ++ currentPath ++ " not found")
      | some _ => .error typeErrorMsg
    | v, k =>
      if isPrimitiveTypeKind k then
        match parsePrimitiveKind r v k .XML with
        | .error e => .error e
        | .ok rv => .ok (.elem objectTag [] [.text (txtOf rv)])
      else .error ("Failed to parse " ++ currentPath)

/-- Embedding of `XMLFormatConverterHandler.parseJSON` (XSD.ts lines
201-252): top-level kind is `array` for a list input, else `class`; the
resulting top-level element gains the two instance attributes. -/
def parseJSON (d : Dicts) (r : Recognizers) (fuel : Nat) (jsonObject : JValue)
    (topLevelTag xsdFileName : String) : Except String XTree :=
  let topKind : TypeKind := match jsonObject with | .arr _ => .kArray | _ => .kClass
  match parseJSONFuel d r fuel jsonObject topLevelTag "" topKind with
  | .error e => .error e
  | .ok (.elem tag attrs children) =>
    .ok (.elem tag (attrs ++
      [("xmlns:xsd", "http://www.w3.org/2001/XMLSchema-instance"),
       ("xsd:noNamespaceSchemaLocation", xsdFileName)]) children)
  | .ok (.text s) => .ok (.text s)

/-- Grouping of sibling elements by tag as performed by xmlbuilder2's
object conversion: tags are keyed in first-occurrence order and a tag
repeated more than once becomes an array, while a tag occurring exactly
once stays a single value (this collapse is what breaks the round trip on
singleton arrays, claim C1). -/
def groupByTag (kids : List (String × JValue)) : List (String × JValue) :=
  let tags := kids.foldl (fun acc kv => if kv.1 ∈ acc then acc else acc ++ [kv.1]) []
  tags.map fun t =>
    match (kids.filter fun kv => kv.1 = t).map Prod.snd with
    | [v] => (t, v)
    | vs => (t, .arr vs)

/-- Model of xmlbuilder2 `convert(xmlString, format: object)` on the trees
produced by `parseJSON` (elements contain either a single text node or
element children only; mixed content is never produced): an empty element
becomes the empty object, a text-only element becomes its string,
attributes become `@`-prefixed keys, and element children are grouped by
tag via `groupByTag`. -/
def xmlToObjFuel : Nat → XTree → JValue
  | 0, _ => .null
  | _ + 1, .text s => .str s
  | fuel + 1, .elem _ attrs children =>
    let elemKids := children.filter isElemTree
    let textConcat := children.foldl
      (fun acc c => match c with | .text s => acc ++ s | _ => acc) ""
    if elemKids.isEmpty && attrs.isEmpty then
      (if textConcat = "" then .obj [] else .str textConcat)
    else
      .obj ((attrs.map fun av => ("@" ++ av.1, JValue.str av.2)) ++
        groupByTag (elemKids.map fun c => (tagOfTree c, xmlToObjFuel fuel c)))

/-- Class-property loop of `parseXMLtoJSON` (XSD.ts lines 177-185): iterate
the XML object's entries in order, silently skipping `@`-prefixed
attribute entries and entries whose tag is not a declared class property;
recurse on the rest. -/
def parseXMLClassEntries (classProps : List (String × ClassProp))
    (step : JValue → String → TypeKind → Except String JValue) :
    List (String × JValue) → Except String (List (String × JValue))
  | [] => .ok []
  | (propKey, propData) :: rest =>
    if startsWithAtSign propKey then parseXMLClassEntries classProps step rest
    else
      match alookup classProps propKey with
      | Option.none => parseXMLClassEntries classProps step rest
      | some propType =>
        match step propData propKey propType.kind with
        | .error e => .error e
        | .ok rv =>
          match parseXMLClassEntries classProps step rest with
          | .error e => .error e
          | .ok restFields => .ok ((propKey, rv) :: restFields)

/-- Embedding of `parseCurrentObject` inside
`XMLFormatConverterHandler.parseXMLtoJSON` (XSD.ts lines 154-196), with
explicit fuel.  Branch order mirrors the source: union, then
`kind==='array' && typeof v==='object'` (indexing `null` raises), then
`kind==='class' && typeof v==='object'` (`null` raises through the `in`
checks or `Object.entries`), then primitive kinds, else panic. -/
def parseXMLtoJSONFuel (d : Dicts) (r : Recognizers) :
    Nat → JValue → String → String → Option TypeKind → Except String JValue
  | 0, _, _, _, _ => .error "out of fuel"
  | fuel + 1, currentXMLObject, objectTag, parentPath, kind =>
    let currentPath := joinPath parentPath objectTag
    match kind, currentXMLObject with
    | some .kUnion, v => parseUnion d r v currentPath .JSON
    | some .kArray, .obj fields =>
      match getArrayType d currentPath with
      | Option.none => .error ("Failed to parse array by path " ++ currentPath)
      | some arrayItemType =>
        match jsIndex (.obj fields) arrayItemType.itemTag with
        | some (.arr items) =>
          match exceptMap
              (fun it => parseXMLtoJSONFuel d r fuel it arrayItemType.itemTag currentPath
                (some arrayItemType.kind)) items with
          | .error e => .error e
          | .ok rvs => .ok (.arr rvs)
        | _ => .error ("Failed to parse array by path " ++ currentPath)
    | some .kArray, .arr items0 =>
      match getArrayType d currentPath with
      | Option.none => .error ("Failed to parse array by path " ++ currentPath)
      | some arrayItemType =>
        match jsIndex (.arr items0) arrayItemType.itemTag with
        | some (.arr items) =>
          match exceptMap
              (fun it => parseXMLtoJSONFuel d r fuel it arrayItemType.itemTag currentPath
                (some arrayItemType.kind)) items with
          | .error e => .error e
          | .ok rvs => .ok (.arr rvs)
        | _ => .error ("Failed to parse array by path " ++ currentPath)
    | some .kArray, .null =>
      match getArrayType d currentPath with
      | Option.none => .error ("Failed to parse array by path " ++ currentPath)
      | some _ => .error typeErrorMsg
    | some .kClass, .obj fields =>
      match getClassType d currentPath with
      | Option.none => .error ("Failed to parse class by path " ++ currentPath)
      | some classProps =>
        if isValidClassPropsInXMLObject d (.obj fields) currentPath then
          match parseXMLClassEntries classProps
              (fun v tag k => parseXMLtoJSONFuel d r fuel v tag currentPath (some k)) fields with
          | .error e => .error e
          | .ok outFields => .ok (.obj outFields)
        else .error ("Failed to parse class by path " ++ currentPath)
    | some .kClass, .arr items =>
      match getClassType d currentPath with
      | Option.none => .error ("Failed to parse class by path " ++ currentPath)
      | some classProps =>
        if isValidClassPropsInXMLObject d (.arr items) currentPath then
          match parseXMLClassEntries classProps
              (fun v tag k => parseXMLtoJSONFuel d r fuel v tag currentPath (some k))
              (entriesOf (.arr items)) with
          | .error e => .error e
          | .ok outFields => .ok (.obj outFields)
        else .error ("Failed to parse class by path " ++ currentPath)
    | some .kClass, .null =>
      match getClassType d currentPath with
      | Option.none => .error ("Failed to parse class by path " ++ currentPath)
      | some _ => .error typeErrorMsg
    | some k, v =>
      if isPrimitiveTypeKind k then parsePrimitiveKind r v k .JSON
      else .error ("Failed to parse " ++ currentPath)
    | Option.none, _ => .error ("Failed to parse " ++ currentPath)

/-- Embedding of `XMLFormatConverterHandler.parseXMLtoJSON` (XSD.ts lines
149-199): take the first entry of the converted XML object as top tag and
data, detect the top kind structurally, and walk. -/
def parseXMLtoJSON (d : Dicts) (r : Recognizers) (fuel : Nat) (xmlObject : JValue) :
    Except String JValue :=
  match xmlObject with
  | .obj ((omittedTopTag, xmlDataObject) :: _) =>
    parseXMLtoJSONFuel d r fuel xmlDataObject omittedTopTag ""
      (getXMLObjectKind d xmlDataObject omittedTopTag)
  | _ => .error "Failed to get defined value"

/-- The JSON-to-XML-to-JSON round trip performed by `emitSource` (XSD.ts
lines 604-607): `parseJSON`, serialization plus object conversion
(`convert(xmlString, format: object)`), then `parseXMLtoJSON`. -/
def convertRoundTrip (d : Dicts) (r : Recognizers) (fuel : Nat) (inputObject : JValue)
    (topLevelName xsdFileName : String) : Except String JValue :=
  match parseJSON d r fuel inputObject topLevelName xsdFileName with
  | .error e => .error e
  | .ok xmlTree =>
    parseXMLtoJSON d r fuel (.obj [(tagOfTree xmlTree, xmlToObjFuel fuel xmlTree)])

/-- Indexed-schema dictionaries for the spec scenario `Root(xs: array of
integer)`: the shape the XSD indexer produces for that schema. -/
def dC1 : Dicts :=
  ⟨[("Root", [("xs", ⟨"complexType2", false, TypeKind.kArray⟩)])],
   [("Root.xs", ⟨"xsd:integer", "xsItem", TypeKind.kInteger⟩)],
   []⟩

/-- The conforming input document with a singleton array value. -/
def jC1 : JValue := .obj [("xs", .arr [.num 1])]

/-- C1 failing input: for the schema `Root(xs: array of integer)` and the
conforming document with `xs = [1]`, the forward conversion succeeds, but
the object form of the generated XML collapses the single `xsItem` sibling
to a scalar (xmlbuilder2 grouping), so `parseXMLtoJSON` panics in its
array branch instead of returning the document: the round trip aborts
rather than yielding the input.  With two array elements the same pipeline
round-trips correctly, isolating the collapse as the cause. -/
theorem c1_roundtrip_fails_on_singleton_array :
    convertRoundTrip dC1 rec0 10 jC1 "Root" "Root.xsd" =
      Except.error "Failed to parse array by path Root.xs" ∧
    (∃ t, parseJSON dC1 rec0 10 jC1 "Root" "Root.xsd" = Except.ok t) ∧
    convertRoundTrip dC1 rec0 10 (JValue.obj [("xs", JValue.arr [JValue.num 1, JValue.num 2])])
        "Root" "Root.xsd" =
      Except.ok (JValue.obj [("xs", JValue.arr [JValue.num 1, JValue.num 2])]) :=
  ⟨rfl, ⟨_, rfl⟩, rfl⟩

/-- A present-but-undeclared property makes the `parseJSON` class loop
panic, whatever else the entry list contains. -/
theorem parseJSONClassProps_error_of_undeclared
    (m : List (String × ClassProp)) (cur : String)
    (step : JValue → String → TypeKind → Except String XTree) :
    ∀ entries : List (String × JValue),
      (∃ kv ∈ entries, alookup m kv.1 = Option.none) →
      ∃ e, parseJSONClassProps m cur step entries = Except.error e := by
  intro entries
  induction entries with
  | nil =>
    rintro ⟨kv, hmem, -⟩
    simp at hmem
  | cons hd tl ih =>
    obtain ⟨hn, hv⟩ := hd
    rintro ⟨kv, hmem, hlook⟩
    rcases List.mem_cons.mp hmem with h | h
    · subst h
      exact ⟨"Failed to find " ++ hn ++ " in " ++ cur ++ " object structure",
        by simp [parseJSONClassProps, hlook]⟩
    · cases hhd : alookup m hn with
      | none =>
        exact ⟨"Failed to find " ++ hn ++ " in " ++ cur ++ " object structure",
          by simp [parseJSONClassProps, hhd]⟩
      | some ps =>
        cases hstep : step hv hn ps.kind with
        | error e => exact ⟨e, by simp [parseJSONClassProps, hhd, hstep]⟩
        | ok child =>
          obtain ⟨e, he⟩ := ih ⟨kv, h, hlook⟩
          exact ⟨e, by simp [parseJSONClassProps, hhd, hstep, he]⟩

/-- When every present property is declared and its recursive conversion
succeeds, the `parseJSON` class loop succeeds and produces exactly one
child per present property, in input order — independently of which other
declared properties are absent. -/
theorem parseJSONClassProps_ok_of_declared
    (m : List (String × ClassProp)) (cur : String)
    (step : JValue → String → TypeKind → Except String XTree) :
    ∀ entries : List (String × JValue),
      (∀ kv ∈ entries, ∃ ps t, alookup m kv.1 = some ps ∧
        step kv.2 kv.1 ps.kind = Except.ok t ∧ tagOfTree t = kv.1) →
      ∃ children, parseJSONClassProps m cur step entries = Except.ok children ∧
        children.map tagOfTree = entries.map Prod.fst := by
  intro entries
  induction entries with
  | nil => exact fun _ => ⟨[], rfl, rfl⟩
  | cons hd tl ih =>
    obtain ⟨hn, hv⟩ := hd
    intro hall
    obtain ⟨ps, t, hlook, hstep, htag⟩ := hall (hn, hv) (List.mem_cons_self _ _)
    obtain ⟨children, hok, hmap⟩ :=
      ih fun kv hkv => hall kv (List.mem_cons_of_mem _ hkv)
    refine ⟨t :: children, ?_, ?_⟩
    · simp [parseJSONClassProps, hlook, hstep, hok]
    · simp [htag, hmap]

/-- A primitive-kind child whose XML coercion accepts its value converts
to a single element carrying the coerced text. -/
theorem parseJSONFuel_primitive_ok (d : Dicts) (r : Recognizers) (fuel : Nat)
    (v : JValue) (tag parentPath : String) (k : TypeKind) (w : JValue)
    (hk : isPrimitiveTypeKind k = true)
    (hc : getPrimitiveKindXMLValue r v k = CoerceResult.val w) :
    parseJSONFuel d r (fuel + 1) v tag parentPath k =
      Except.ok (.elem tag [] [.text (txtOf w)]) := by
  cases k <;> simp [isPrimitiveTypeKind, isPrimitiveStringTypeKind] at hk
  all_goals
    cases v <;>
      simp [parseJSONFuel, parsePrimitiveKind, coerceValue, hc, isPrimitiveTypeKind,
        isPrimitiveStringTypeKind]

/-- One-step unfolding of the `parseJSON` walker on a JSON object at class
kind (the `typeof v === 'object' && kind === 'class'` branch). -/
theorem parseJSONFuel_class_eq (d : Dicts) (r : Recognizers) (fuel : Nat)
    (tag parentPath : String) (fields : List (String × JValue)) :
    parseJSONFuel d r (fuel + 1) (.obj fields) tag parentPath .kClass =
      match getClassType d (joinPath parentPath tag) with
      | Option.none =>
        .error ("Object with path " ++ joinPath parentPath tag ++ " not found")
      | some objectStructure =>
        match parseJSONClassProps objectStructure (joinPath parentPath tag)
            (fun v t k => parseJSONFuel d r fuel v t (joinPath parentPath tag) k) fields with
        | .error e => .error e
        | .ok children => .ok (.elem tag [] children) := rfl

/-- One-step unfolding of the `parseXMLtoJSON` walker on an XML object at
class kind (the `kind === 'class' && typeof v === 'object'` branch). -/
theorem parseXMLtoJSONFuel_class_eq (d : Dicts) (r : Recognizers) (fuel : Nat)
    (tag parentPath : String) (fields : List (String × JValue)) :
    parseXMLtoJSONFuel d r (fuel + 1) (.obj fields) tag parentPath (some .kClass) =
      match getClassType d (joinPath parentPath tag) with
      | Option.none => .error ("Failed to parse class by path " ++ joinPath parentPath tag)
      | some classProps =>
        if isValidClassPropsInXMLObject d (.obj fields) (joinPath parentPath tag) then
          match parseXMLClassEntries classProps
              (fun v t k => parseXMLtoJSONFuel d r fuel v t (joinPath parentPath tag) (some k))
              fields with
          | .error e => .error e
          | .ok outFields => .ok (.obj outFields)
        else .error ("Failed to parse class by path " ++ joinPath parentPath tag) := rfl

/-- C9: the JSON-to-XML class conversion iterates only the properties
present in the input object (part 2: on success there is exactly one child
per present property, in input order), fails when a present property is
not declared (part 1), and never requires declared non-optional properties
to be present — part 2 carries no coverage hypothesis, so any subset of
the declared (primitive-kinded) properties converts.  Presence validation
exists only in the XML-to-JSON direction (part 3:
`isValidClassPropsInXMLObject` rejects an object missing a non-optional
declared property). -/
theorem c9_parseJSON_no_required_presence_check :
    (∀ (d : Dicts) (r : Recognizers) (fuel : Nat) (tag parentPath : String)
      (m : List (String × ClassProp)) (fields : List (String × JValue)),
      getClassType d (joinPath parentPath tag) = some m →
      (∃ kv ∈ fields, alookup m kv.1 = Option.none) →
      ∃ e, parseJSONFuel d r fuel (.obj fields) tag parentPath .kClass = Except.error e) ∧
    (∀ (d : Dicts) (r : Recognizers) (fuel : Nat) (tag parentPath : String)
      (m : List (String × ClassProp)) (fields : List (String × JValue)),
      getClassType d (joinPath parentPath tag) = some m →
      (∀ kv ∈ fields, ∃ ps w, alookup m kv.1 = some ps ∧ isPrimitiveTypeKind ps.kind = true ∧
        getPrimitiveKindXMLValue r kv.2 ps.kind = CoerceResult.val w) →
      ∃ children, parseJSONFuel d r (fuel + 2) (.obj fields) tag parentPath .kClass =
        Except.ok (.elem tag [] children) ∧
        children.map tagOfTree = fields.map Prod.fst) ∧
    (∀ (d : Dicts) (path : String) (m : List (String × ClassProp)) (v : JValue),
      getClassType d path = some m →
      (∃ p ∈ m, p.2.isOptional = false ∧ inOp v p.1 = false) →
      isValidClassPropsInXMLObject d v path = false) := by
  refine ⟨?_, ?_, ?_⟩
  · intro d r fuel tag parentPath m fields hm hex
    cases fuel with
    | zero => exact ⟨"out of fuel", rfl⟩
    | succ n =>
      obtain ⟨e, he⟩ := parseJSONClassProps_error_of_undeclared m (joinPath parentPath tag)
        (fun v t k => parseJSONFuel d r n v t (joinPath parentPath tag) k) fields hex
      exact ⟨e, by simp only [parseJSONFuel_class_eq, hm, he]⟩
  · intro d r fuel tag parentPath m fields hm hall
    obtain ⟨children, hok, hmap⟩ := parseJSONClassProps_ok_of_declared m (joinPath parentPath tag)
      (fun v t k => parseJSONFuel d r (fuel + 1) v t (joinPath parentPath tag) k) fields
      (fun kv hkv => by
        obtain ⟨ps, w, hlook, hprim, hc⟩ := hall kv hkv
        exact ⟨ps, .elem kv.1 [] [.text (txtOf w)], hlook,
          parseJSONFuel_primitive_ok d r fuel kv.2 kv.1 (joinPath parentPath tag) ps.kind w
            hprim hc, rfl⟩)
    exact ⟨children, by simp only [parseJSONFuel_class_eq, hm, hok], hmap⟩
  · intro d path m v hm hex
    obtain ⟨p, hpmem, hopt, hin⟩ := hex
    simp only [isValidClassPropsInXMLObject, hm]
    refine List.all_eq_false.mpr ⟨p, hpmem, ?_⟩
    simp [hin, hopt]

/-- C9 witness: for the class `Root(a: integer required, b: string
required)` — an undeclared present property `c` is fatal; the input
containing only `a` (missing the required `b`) converts without error; and
the XML-direction validator rejects an object missing `b`. -/
theorem c9_parseJSON_no_required_presence_check_witness :
    (∃ e, parseJSONFuel
      ⟨[("Root", [("a", ⟨"xsd:integer", false, TypeKind.kInteger⟩),
                  ("b", ⟨"xsd:string", false, TypeKind.kString⟩)])], [], []⟩
      rec0 5 (.obj [("c", .num 1)]) "Root" "" .kClass = Except.error e) ∧
    (∃ children, parseJSONFuel
      ⟨[("Root", [("a", ⟨"xsd:integer", false, TypeKind.kInteger⟩),
                  ("b", ⟨"xsd:string", false, TypeKind.kString⟩)])], [], []⟩
      rec0 5 (.obj [("a", .num 1)]) "Root" "" .kClass =
        Except.ok (.elem "Root" [] children) ∧
      children.map tagOfTree = [("a", JValue.num 1)].map Prod.fst) ∧
    isValidClassPropsInXMLObject
      ⟨[("Root", [("a", ⟨"xsd:integer", false, TypeKind.kInteger⟩),
                  ("b", ⟨"xsd:string", false, TypeKind.kString⟩)])], [], []⟩
      (.obj [("a", .str "1")]) "Root" = false := by
  refine ⟨?_, ?_, ?_⟩
  · exact c9_parseJSON_no_required_presence_check.1 _ rec0 5 "Root" "" _ _ rfl
      ⟨("c", .num 1), by simp, rfl⟩
  · exact c9_parseJSON_no_required_presence_check.2.1 _ rec0 3 "Root" "" _ _ rfl
      (fun kv hkv => by
        have h := List.mem_singleton.mp hkv
        subst h
        exact ⟨⟨"xsd:integer", false, TypeKind.kInteger⟩, .str "1", rfl, rfl, rfl⟩)
  · exact c9_parseJSON_no_required_presence_check.2.2 _ "Root" _ _ rfl
      ⟨("b", ⟨"xsd:string", false, TypeKind.kString⟩), by simp, rfl, rfl⟩

/-- Key structure of the `parseXMLtoJSON` class loop: on success, the
output fields are exactly the input entries that are neither `@`-prefixed
nor undeclared, in input order. -/
theorem parseXMLClassEntries_keys
    (m : List (String × ClassProp)) (step : JValue → String → TypeKind → Except String JValue) :
    ∀ (entries out : List (String × JValue)),
      parseXMLClassEntries m step entries = Except.ok out →
      out.map Prod.fst =
        ((entries.filter fun kv => !(startsWithAtSign kv.1) && (alookup m kv.1).isSome).map
          Prod.fst) := by
  intro entries
  induction entries with
  | nil =>
    intro out h
    simp only [parseXMLClassEntries] at h
    cases h
    rfl
  | cons hd tl ih =>
    obtain ⟨hn, hv⟩ := hd
    intro out h
    by_cases hat : startsWithAtSign hn
    · simp only [parseXMLClassEntries, hat, if_true] at h
      simp [List.filter_cons, hat, ih out h]
    · cases halook : alookup m hn with
      | none =>
        simp only [parseXMLClassEntries, hat, if_false, halook] at h
        simp [List.filter_cons, hat, halook, ih out h]
      | some pt =>
        simp only [parseXMLClassEntries, hat, if_false, halook] at h
        cases hstep : step hv hn pt.kind with
        | error e => rw [hstep] at h; cases h
        | ok rv =>
          rw [hstep] at h
          cases hrec : parseXMLClassEntries m step tl with
          | error e => rw [hrec] at h; cases h
          | ok rest =>
            rw [hrec] at h
            cases h
            simp [List.filter_cons, hat, halook, ih rest hrec]

/-- C10: when the XML-to-JSON class conversion succeeds on an XML object,
the resulting JSON object contains exactly the keys of the XML children
that are declared class properties and not `@`-prefixed attribute entries,
in input order; in particular every resulting key is a declared class
property. -/
theorem c10_parseXMLtoJSON_class_omits_undeclared :
    ∀ (d : Dicts) (r : Recognizers) (fuel : Nat) (tag parentPath : String)
      (m : List (String × ClassProp)) (fields : List (String × JValue)) (out : JValue),
      getClassType d (joinPath parentPath tag) = some m →
      parseXMLtoJSONFuel d r (fuel + 1) (.obj fields) tag parentPath (some .kClass) =
        Except.ok out →
      ∃ outFields, out = JValue.obj outFields ∧
        outFields.map Prod.fst =
          ((fields.filter fun kv => !(startsWithAtSign kv.1) && (alookup m kv.1).isSome).map
            Prod.fst) ∧
        ∀ key ∈ outFields.map Prod.fst, (alookup m key).isSome = true := by
  intro d r fuel tag parentPath m fields out hm hok
  simp only [parseXMLtoJSONFuel_class_eq, hm] at hok
  split at hok
  · cases hrec : parseXMLClassEntries m
        (fun v t k => parseXMLtoJSONFuel d r fuel v t (joinPath parentPath tag) (some k))
        fields with
    | error e => rw [hrec] at hok; cases hok
    | ok outFields =>
      rw [hrec] at hok
      cases hok
      have hkeys := parseXMLClassEntries_keys m
        (fun v t k => parseXMLtoJSONFuel d r fuel v t (joinPath parentPath tag) (some k))
        fields outFields hrec
      refine ⟨outFields, rfl, hkeys, ?_⟩
      intro key hkey
      rw [hkeys] at hkey
      obtain ⟨kv, hkvmem, hfst⟩ := List.mem_map.mp hkey
      have hprop := (List.mem_filter.mp hkvmem).2
      rw [← hfst]
      exact (Bool.and_eq_true_iff.mp hprop).2
  · cases hok

/-- C10 witness: for the class `Root(a: integer)` and the XML object with
children `@x` (attribute), `a` (declared) and `zzz` (undeclared), the
result keeps exactly the key `a`. -/
theorem c10_parseXMLtoJSON_class_omits_undeclared_witness :
    ∃ outFields, JValue.obj [("a", JValue.num 2)] = JValue.obj outFields ∧
      outFields.map Prod.fst =
        (([("@x", JValue.str "1"), ("a", JValue.str "2"), ("zzz", JValue.str "3")].filter
          fun kv => !(startsWithAtSign kv.1) &&
            (alookup [("a", (⟨"xsd:integer", false, TypeKind.kInteger⟩ : ClassProp))]
              kv.1).isSome).map Prod.fst) ∧
      ∀ key ∈ outFields.map Prod.fst,
        (alookup [("a", (⟨"xsd:integer", false, TypeKind.kInteger⟩ : ClassProp))]
          key).isSome = true :=
  c10_parseXMLtoJSON_class_omits_undeclared
    ⟨[("Root", [("a", ⟨"xsd:integer", false, TypeKind.kInteger⟩)])], [], []⟩
    rec0 4 "Root" "" [("a", ⟨"xsd:integer", false, TypeKind.kInteger⟩)]
    [("@x", JValue.str "1"), ("a", JValue.str "2"), ("zzz", JValue.str "3")]
    (JValue.obj [("a", JValue.num 2)]) rfl rfl

/-- Class property of a quicktype `ClassType` as consumed by
`renderClass`: property name, type reference of the property type, and
the optional flag. -/
structure ClassProperty where
  name : String
  typeRef : Nat
  isOptional : Bool
deriving DecidableEq, Repr

/-- Type node of the consumed type graph (§3 of the specification); the
kinds dispatched by `matchTypeExhaustive` in `renderTypes` (XSD.ts lines
515-542).  Children are type references (`TypeRef`), allowing cyclic
graphs; union members are represented by their kinds, which is all
`renderUnion` reads of them. -/
inductive TypeNode where
  | nullT
  | boolT
  | integerT
  | doubleT
  | stringT
  | transformedT (k : TypeKind)
  | noneT
  | anyT
  | mapT
  | objectT
  | enumT
  | arrayT (items : Nat)
  | classT (props : List ClassProperty)
  | unionT (memberKinds : List TypeKind)
deriving DecidableEq, Repr

/-- The type graph: an association of type references to nodes. -/
structure TGraph where
  nodes : List (Nat × TypeNode)
deriving DecidableEq, Repr

/-- Node lookup (dereferencing a `TypeRef`). -/
def lookupNode (g : TGraph) (ref : Nat) : Option TypeNode :=
  alookup g.nodes ref

/-- The attributes threaded into a rendered `<element>`:
`minOccurs="0"` (optional class property, array item) and
`maxOccurs="unbounded"` (array item). -/
structure ElemAttrs where
  minOccurs0 : Bool
  maxOccursUnbounded : Bool
deriving DecidableEq, Repr

/-- Empty attribute set (the default `additionalAttrs = {}`). -/
def noAttrs : ElemAttrs := ⟨false, false⟩

/-- A rendered local `<xsd:element>`: name, `@type` value, attributes. -/
structure LocalElem where
  name : String
  type : String
  attrs : ElemAttrs
deriving DecidableEq, Repr

/-- A named definition emitted under the schema root by the lowerer:
`<complexType name><all>…` for classes, `<complexType name><sequence>…`
for arrays, `<simpleType name><union>…` for primitive unions.  The source
appends the parent definition shell before descending into children
definitions; here each definition is appended complete, after its
descendants — no claim depends on the relative order of root
definitions. -/
inductive RootDef where
  | complexClass (name : String) (allChildren : List LocalElem)
  | complexArray (name : String) (seqChildren : List LocalElem)
  | simpleUnion (name : String) (bases : List String)
deriving DecidableEq, Repr

/-- An entry of `typeRefsByElementName`: the recorded type reference and
its prefix chain (`elementPrefixes`). -/
structure ElemRec where
  typeRef : Nat
  elemPrefChain : List String
deriving DecidableEq, Repr

/-- Mutable state of `XSDRenderer` during lowering:
`processedCustomTypes` (typeref to complex-type name, insertion order),
`typeRefsByElementName`, and the accumulated root definitions. -/
structure RState where
  processedCustomTypes : List (Nat × String)
  typeRefsByElementName : List (String × List ElemRec)
  rootDefs : List RootDef
deriving DecidableEq, Repr

/-- Fresh per-render state. -/
def initState : RState := ⟨[], [], []⟩

/-- The XMLSchema built-in base names rewritten by
`XSDSchemaWrapper.ele` (XSD.ts lines 109-124). -/
def supportedBaseTypes : List String :=
  ["string", "integer", "decimal", "dateTime", "date", "time", "boolean"]

/-- The `base`/`type` attribute rewrite of `XSDSchemaWrapper.ele`: a
built-in base name gains the `xsd:` prefix. -/
def xsdQualify (t : String) : String :=
  if t ∈ supportedBaseTypes then "xsd:" ++ t else t

/-- The `mapPrimitiveKindToXSDTypes` table (XSD.ts lines 62-74). -/
def mapPrimitiveKindToXSDTypes : TypeKind → Option String
  | .kDate => some "dateType"
  | .kTime => some "timeType"
  | .kDateTime => some "dateTimeType"
  | .kUri => some "uriType"
  | .kIntegerString => some "integerStringType"
  | .kBoolString => some "booleanStringType"
  | .kString => some "xsd:string"
  | .kInteger => some "xsd:integer"
  | .kDouble => some "xsd:decimal"
  | .kBool => some "xsd:boolean"
  | .kNull => some "nullType"
  | _ => Option.none

/-- JS `key.charAt(0).toUpperCase() + key.slice(1)`. -/
def titleCase (s : String) : String :=
  match s.data with
  | [] => ""
  | c :: cs => String.mk (c.toUpper :: cs)

/-- The member loop of `renderUnion` (XSD.ts lines 504-511): a primitive
member contributes a `<restriction base=…>` (through the `defined(...)`
table lookup and the wrapper's attribute rewrite); a non-primitive member
is a fatal `unsupported-union` error. -/
def unionBases : List TypeKind → Except String (List String)
  | [] => .ok []
  | k :: ks =>
    if isPrimitiveTypeKind k then
      match mapPrimitiveKindToXSDTypes k with
      | Option.none => .error "Failed to get defined value"
      | some xsdType =>
        match unionBases ks with
        | .error e => .error e
        | .ok rest => .ok (xsdQualify xsdType :: rest)
    else .error "Union type with complex types not supported"

/-- The `createElementCondition` recording step shared by `renderArray`
(lines 389-397), `renderClass` (lines 428-436) and `renderUnion` (lines
478-486): push the (typeref, prefix chain) entry under the element key
when the condition holds. -/
def recordElement (st : RState) (key : String) (ref : Nat) (prefixes : List String)
    (createElement : Bool) (processedType : Option String) : RState :=
  let elementTypes := (alookup st.typeRefsByElementName key).getD []
  let createElementCondition := createElement &&
    ((processedType.isSome && !(elementTypes.any fun er => er.typeRef == ref)) ||
      processedType.isNone)
  if createElementCondition then
    { st with
      typeRefsByElementName :=
        aset st.typeRefsByElementName key (elementTypes ++ [⟨ref, prefixes⟩]) }
  else st

/-- Error-propagating fold over class properties (the
`type.getProperties().forEach` loop of `renderClass`), threading renderer
state and collecting the children of the `<all>` content; the step
function is the recursive `renderTypes` call. -/
def foldProps
    (step : ClassProperty → RState → Option (Except String (RState × List LocalElem))) :
    List ClassProperty → RState → List LocalElem →
    Option (Except String (RState × List LocalElem))
  | [], st, acc => some (.ok (st, acc))
  | p :: ps, st, acc =>
    match step p st with
    | Option.none => Option.none
    | some (.error e) => some (.error e)
    | some (.ok (st1, ls)) => foldProps step ps st1 (acc ++ ls)

/-- Embedding of `XSDRenderer.renderTypes` (XSD.ts lines 515-542) together
with its callbacks `renderNull`/`renderBool`/…/`renderTransformedString`
(lines 344-377), `renderArray` (379-416), `renderClass` (418-466) and
`renderUnion` (468-513), with explicit fuel (`none` = fuel exhausted; the
source recursion is cycle-guarded only by the `processedCustomTypes`
check).  The returned `List LocalElem` is what the call appends into the
caller's schema position; `isRoot` models `schema === this.rootSchema`
(composite kinds emit no local element at the root). -/
def renderTypesFuel (g : TGraph) :
    Nat → Nat → RState → List String → String → ElemAttrs → Bool → Bool →
    Option (Except String (RState × List LocalElem))
  | 0, _, _, _, _, _, _, _ => Option.none
  | fuel + 1, ref, st, prefixes, key, attrs, createElement, isRoot =>
    match lookupNode g ref with
    | Option.none => some (.error "dangling type reference")
    | some node =>
      match node with
      | .noneT | .anyT | .mapT | .objectT | .enumT => some (.ok (st, []))
      | .nullT => some (.ok (st, [⟨key, xsdQualify "nullType", attrs⟩]))
      | .boolT => some (.ok (st, [⟨key, xsdQualify "boolean", attrs⟩]))
      | .integerT => some (.ok (st, [⟨key, xsdQualify "integer", attrs⟩]))
      | .doubleT => some (.ok (st, [⟨key, xsdQualify "decimal", attrs⟩]))
      | .stringT => some (.ok (st, [⟨key, xsdQualify "string", attrs⟩]))
      | .transformedT k =>
        if isPrimitiveStringTypeKind k then
          match mapPrimitiveKindToXSDTypes k with
          | Option.none => some (.error "Failed to get defined value")
          | some xsdType => some (.ok (st, [⟨key, xsdQualify xsdType, attrs⟩]))
        else some (.ok (st, []))
      | .arrayT itemsRef =>
        let newType := "complexType" ++ toString (st.processedCustomTypes.length + 1)
        let processedType := alookup st.processedCustomTypes ref
        let st1 := recordElement st key ref prefixes createElement processedType
        let locals : List LocalElem :=
          if isRoot then [] else [⟨key, processedType.getD newType, attrs⟩]
        match processedType with
        | some _ => some (.ok (st1, locals))
        | Option.none =>
          let st2 := { st1 with processedCustomTypes :=
            st1.processedCustomTypes ++ [(ref, newType)] }
          match renderTypesFuel g fuel itemsRef st2 prefixes (key ++ "Item")
              ⟨true, true⟩ false false with
          | Option.none => Option.none
          | some (.error e) => some (.error e)
          | some (.ok (st3, itemLocals)) =>
            some (.ok ({ st3 with
              rootDefs := st3.rootDefs ++ [.complexArray newType itemLocals] }, locals))
      | .classT props =>
        let newType := "complexType" ++ toString (st.processedCustomTypes.length + 1)
        let processedType := alookup st.processedCustomTypes ref
        let st1 := recordElement st key ref prefixes createElement processedType
        let locals : List LocalElem :=
          if isRoot then [] else [⟨key, processedType.getD newType, attrs⟩]
        match processedType with
        | some _ => some (.ok (st1, locals))
        | Option.none =>
          let st2 := { st1 with processedCustomTypes :=
            st1.processedCustomTypes ++ [(ref, newType)] }
          let newPrefixes := key :: prefixes.map (fun p => p ++ titleCase key)
          match foldProps
              (fun p stp => renderTypesFuel g fuel p.typeRef stp newPrefixes p.name
                ⟨p.isOptional, false⟩ true false) props st2 [] with
          | Option.none => Option.none
          | some (.error e) => some (.error e)
          | some (.ok (st3, allChildren)) =>
            some (.ok ({ st3 with
              rootDefs := st3.rootDefs ++ [.complexClass newType allChildren] }, locals))
      | .unionT memberKinds =>
        let newType := "complexType" ++ toString (st.processedCustomTypes.length + 1)
        let processedType := alookup st.processedCustomTypes ref
        let st1 := recordElement st key ref prefixes createElement processedType
        let locals : List LocalElem :=
          if isRoot then [] else [⟨key, processedType.getD newType, attrs⟩]
        match processedType with
        | some _ => some (.ok (st1, locals))
        | Option.none =>
          let st2 := { st1 with processedCustomTypes :=
            st1.processedCustomTypes ++ [(ref, newType)] }
          match unionBases memberKinds with
          | .error e => some (.error e)
          | .ok bases =>
            some (.ok ({ st2 with
              rootDefs := st2.rootDefs ++ [.simpleUnion newType bases] }, locals))

/-- The candidate element name computed by the disambiguation loop of
`renderElements` (XSD.ts lines 567-571):
`elementPrefixes[prefixIndex] ?? arrayLast(elementPrefixes)`, then
`currentPrefix ? currentPrefix + TitleCase(key) : key` (an absent or
empty prefix keeps the bare key). -/
def candidateName (elementKey : String) (chain : List String) (i : Nat) : String :=
  match (chain.get? i).orElse (fun _ => chain.getLast?) with
  | some p => if p = "" then elementKey else p ++ titleCase elementKey
  | Option.none => elementKey

/-- One iteration of the disambiguation loop at prefix index `i`: build
the candidate-name map; a repeated candidate name fails the iteration. -/
def attemptAt (elementKey : String) (entries : List ElemRec) (i : Nat) :
    Option (List (String × Nat)) :=
  entries.foldl
    (fun acc er =>
      match acc with
      | Option.none => Option.none
      | some assoc =>
        let newKey := candidateName elementKey er.elemPrefChain i
        if (alookup assoc newKey).isSome then Option.none
        else some (assoc ++ [(newKey, er.typeRef)]))
    (some [])

/-- The `do … while (!success)` loop of `renderElements` (lines 562-580):
try prefix indices `i`, `i+1`, … until an iteration succeeds; `none` means
the given fuel was exhausted without success (the source loops forever in
that case). -/
def resolveTagFuel (elementKey : String) (entries : List ElemRec) :
    Nat → Nat → Option (List (String × Nat))
  | 0, _ => Option.none
  | fuel + 1, i =>
    match attemptAt elementKey entries i with
    | some assoc => some assoc
    | Option.none => resolveTagFuel elementKey entries fuel (i + 1)

/-- Resolution for one element tag (lines 556-580): a single entry keeps
its tag as the element name; otherwise run the disambiguation loop from
index 0. -/
def resolveTag (fuel : Nat) (elementKey : String) (entries : List ElemRec) :
    Option (List (String × Nat)) :=
  match entries with
  | [e] => some [(elementKey, e.typeRef)]
  | _ => resolveTagFuel elementKey entries fuel 0

/-- `renderSchemaElements` (lines 549-554): emit one top-level
`<element name type>` per resolved name, where the type is
`defined(processedCustomTypes.get(typeRef))`. -/
def renderAssoc (processed : List (Nat × String)) :
    List (String × Nat) → Except String (List (String × String))
  | [] => .ok []
  | (name, ref) :: rest =>
    match alookup processed ref with
    | Option.none => .error "Failed to get defined value"
    | some ty =>
      match renderAssoc processed rest with
      | .error e => .error e
      | .ok elems => .ok ((name, ty) :: elems)

/-- Iteration of `renderElements` over `typeRefsByElementName`. -/
def renderElementsGo (fuel : Nat) (processed : List (Nat × String)) :
    List (String × List ElemRec) → Option (Except String (List (String × String)))
  | [] => some (.ok [])
  | (elementKey, entries) :: rest =>
    match resolveTag fuel elementKey entries with
    | Option.none => Option.none
    | some assoc =>
      match renderAssoc processed assoc with
      | .error e => some (.error e)
      | .ok elems =>
        match renderElementsGo fuel processed rest with
        | Option.none => Option.none
        | some (.error e) => some (.error e)
        | some (.ok restElems) => some (.ok (elems ++ restElems))

/-- Embedding of `XSDRenderer.renderElements` (XSD.ts lines 544-584) with
explicit fuel for the disambiguation loop: the emitted top-level element
declarations, in iteration order. -/
def renderElements (fuel : Nat) (st : RState) :
    Option (Except String (List (String × String))) :=
  renderElementsGo fuel st.processedCustomTypes st.typeRefsByElementName

def digitVal (c : Char) : Nat := c.toNat - 48

def interpChars : Nat → List Char → Nat
  | a, [] => a
  | a, c :: cs => interpChars (a * 10 + digitVal c) cs

theorem interpChars_append (a : Nat) (xs ys : List Char) :
    interpChars a (xs ++ ys) = interpChars (interpChars a xs) ys := by
  induction xs generalizing a with
  | nil => rfl
  | cons c cs ih =>
    rw [List.cons_append]
    show interpChars (a * 10 + digitVal c) (cs ++ ys) = _
    rw [ih]
    rfl

theorem digitVal_digitChar : ∀ d : Nat, d < 10 → digitVal (Nat.digitChar d) = d := by
  intro d h
  interval_cases d <;> rfl

theorem toDigitsCore_fuel_irrelevant :
    ∀ (n f1 f2 : Nat) (ds : List Char), n < f1 → n < f2 →
      Nat.toDigitsCore 10 f1 n ds = Nat.toDigitsCore 10 f2 n ds := by
  intro n
  induction n using Nat.strong_induction_on with
  | _ n ih =>
    intro f1 f2 ds h1 h2
    obtain ⟨a, rfl⟩ : ∃ a, f1 = a + 1 := ⟨f1 - 1, by omega⟩
    obtain ⟨b, rfl⟩ : ∃ b, f2 = b + 1 := ⟨f2 - 1, by omega⟩
    rw [Nat.toDigitsCore, Nat.toDigitsCore]
    by_cases hz : n / 10 = 0
    · rw [if_pos hz, if_pos hz]
    · rw [if_neg hz, if_neg hz]
      have hlt : n / 10 < n := Nat.div_lt_self (by omega) (by omega)
      exact ih (n / 10) hlt a b _ (by omega) (by omega)

theorem toDigitsCore_append :
    ∀ (n f : Nat) (ds : List Char), n < f →
      Nat.toDigitsCore 10 f n ds = Nat.toDigitsCore 10 f n [] ++ ds := by
  intro n
  induction n using Nat.strong_induction_on with
  | _ n ih =>
    intro f ds h
    obtain ⟨a, rfl⟩ : ∃ a, f = a + 1 := ⟨f - 1, by omega⟩
    rw [Nat.toDigitsCore, Nat.toDigitsCore]
    by_cases hz : n / 10 = 0
    · rw [if_pos hz, if_pos hz]
      rfl
    · rw [if_neg hz, if_neg hz]
      have hlt : n / 10 < n := Nat.div_lt_self (by omega) (by omega)
      have hfa : n / 10 < a := by omega
      rw [ih (n / 10) hlt a (Nat.digitChar (n % 10) :: ds) hfa,
          ih (n / 10) hlt a [Nat.digitChar (n % 10)] hfa,
          List.append_assoc]
      rfl

theorem toDigits_eq (n : Nat) :
    Nat.toDigits 10 n =
      if n / 10 = 0 then [Nat.digitChar (n % 10)]
      else Nat.toDigits 10 (n / 10) ++ [Nat.digitChar (n % 10)] := by
  rw [Nat.toDigits, Nat.toDigitsCore]
  by_cases hz : n / 10 = 0
  · rw [if_pos hz, if_pos hz]
  · rw [if_neg hz, if_neg hz]
    have hlt : n / 10 < n := Nat.div_lt_self (by omega) (by omega)
    rw [toDigitsCore_fuel_irrelevant (n / 10) n (n / 10 + 1) _ (by omega) (by omega),
        toDigitsCore_append (n / 10) (n / 10 + 1) _ (by omega)]
    rfl

theorem interp_toDigits : ∀ n : Nat, interpChars 0 (Nat.toDigits 10 n) = n := by
  intro n
  induction n using Nat.strong_induction_on with
  | _ n ih =>
    rw [toDigits_eq]
    by_cases hz : n / 10 = 0
    · rw [if_pos hz]
      have hn : n < 10 := by omega
      have hmod : n % 10 = n := Nat.mod_eq_of_lt hn
      show 0 * 10 + digitVal (Nat.digitChar (n % 10)) = n
      rw [hmod, digitVal_digitChar n hn]
      omega
    · rw [if_neg hz, interpChars_append, ih (n / 10) (by omega)]
      have hm : n % 10 < 10 := Nat.mod_lt _ (by omega)
      show n / 10 * 10 + digitVal (Nat.digitChar (n % 10)) = n
      rw [digitVal_digitChar (n % 10) hm]
      omega

theorem natToString_injective (m n : Nat) (h : toString m = toString n) : m = n := by
  have hm : Nat.toDigits 10 m = Nat.toDigits 10 n := congrArg String.data h
  have h2 := congrArg (interpChars 0) hm
  rwa [interp_toDigits, interp_toDigits] at h2

theorem complexTypeName_inj (i j : Nat)
    (h : "complexType" ++ toString i = "complexType" ++ toString j) : i = j := by
  apply natToString_injective
  have hd := congrArg String.data h
  simp only [String.data_append] at hd
  have hd2 := List.append_cancel_left hd
  cases hi : toString i with
  | mk di =>
    cases hj : toString j with
    | mk dj => simp_all

/-- Lookup distributes over append: the left list wins. -/
theorem alookup_append {κ α : Type} [DecidableEq κ] (l1 l2 : List (κ × α)) (k : κ) :
    alookup (l1 ++ l2) k =
      match alookup l1 k with
      | some v => some v
      | Option.none => alookup l2 k := by
  induction l1 with
  | nil => rfl
  | cons kv rest ih =>
    obtain ⟨k0, v0⟩ := kv
    by_cases hk : k0 = k
    · simp [alookup, hk]
    · simp [alookup, hk, ih]

/-- A binding found before an append is still found after it. -/
theorem alookup_append_some {κ α : Type} [DecidableEq κ] {l1 : List (κ × α)} (l2 : List (κ × α))
    {k : κ} {v : α} (h : alookup l1 k = some v) : alookup (l1 ++ l2) k = some v := by
  rw [alookup_append, h]

/-- An absent key delegates lookup to the appended tail. -/
theorem alookup_append_none {κ α : Type} [DecidableEq κ] {l1 : List (κ × α)} (l2 : List (κ × α))
    {k : κ} (h : alookup l1 k = Option.none) : alookup (l1 ++ l2) k = alookup l2 k := by
  rw [alookup_append, h]

/-- Lookup fails exactly on keys outside the list. -/
theorem alookup_eq_none_iff {κ α : Type} [DecidableEq κ] (l : List (κ × α)) (k : κ) :
    alookup l k = Option.none ↔ k ∉ l.map Prod.fst := by
  induction l with
  | nil => simp [alookup]
  | cons kv rest ih =>
    obtain ⟨k0, v0⟩ := kv
    by_cases hk : k0 = k
    · simp [alookup, hk]
    · simp [alookup, hk, ih, Ne.symm hk]

/-- A successful lookup exhibits an index holding the binding. -/
theorem alookup_get {κ α : Type} [DecidableEq κ] :
    ∀ (l : List (κ × α)) (k : κ) (v : α), alookup l k = some v →
      ∃ i, ∃ h : i < l.length, l[i] = (k, v) := by
  intro l
  induction l with
  | nil => intro k v h; cases h
  | cons kv rest ih =>
    obtain ⟨k0, v0⟩ := kv
    intro k v h
    by_cases hk : k0 = k
    · refine ⟨0, by simp, ?_⟩
      simp only [alookup, if_pos hk] at h
      cases h
      simp [hk]
    · simp only [alookup, if_neg hk] at h
      obtain ⟨i, hi, hget⟩ := ih k v h
      exact ⟨i + 1, by simpa using hi, by simpa using hget⟩

/-- The name-allocation invariant of `processedCustomTypes`: the entry at
position `i` (in insertion order) carries the name `complexType(i+1)` —
i.e. names are allocated as `complexType1`, `complexType2`, … in visit
order. -/
def processedWellFormed (st : RState) : Prop :=
  ∀ i (h : i < st.processedCustomTypes.length),
    (st.processedCustomTypes[i]).2 = "complexType" ++ toString (i + 1)

/-- The record step touches only `typeRefsByElementName`. -/
theorem recordElement_processed (st : RState) (key : String) (ref : Nat)
    (prefixes : List String) (ce : Bool) (pt : Option String) :
    (recordElement st key ref prefixes ce pt).processedCustomTypes =
      st.processedCustomTypes := by
  simp only [recordElement]
  split <;> rfl

/-- The record step touches only `typeRefsByElementName`. -/
theorem recordElement_rootDefs (st : RState) (key : String) (ref : Nat)
    (prefixes : List String) (ce : Bool) (pt : Option String) :
    (recordElement st key ref prefixes ce pt).rootDefs = st.rootDefs := by
  simp only [recordElement]
  split <;> rfl

/-- Appending a fresh entry named by the current length preserves the
name-allocation invariant. -/
theorem processedWellFormed_snoc (pl : List (Nat × String)) (ref : Nat)
    (h : ∀ i (hi : i < pl.length), (pl[i]).2 = "complexType" ++ toString (i + 1)) :
    ∀ i (hi : i < (pl ++ [(ref, "complexType" ++ toString (pl.length + 1))]).length),
      ((pl ++ [(ref, "complexType" ++ toString (pl.length + 1))])[i]).2 =
        "complexType" ++ toString (i + 1) := by
  intro i hi
  rcases Nat.lt_or_ge i pl.length with hlt | hge
  · rw [List.getElem_append_left hlt]
    exact h i hlt
  · have hieq : i = pl.length := by
      simp only [List.length_append, List.length_singleton] at hi
      omega
    subst hieq
    rw [List.getElem_append_right (by omega)]
    simp

/-- State evolution of the class-property fold: threaded through the
per-property step. -/
theorem foldProps_processed
    (step : ClassProperty → RState → Option (Except String (RState × List LocalElem)))
    (hstep : ∀ p stp st1 ls1, step p stp = some (.ok (st1, ls1)) →
      (∃ l, st1.processedCustomTypes = stp.processedCustomTypes ++ l) ∧
      (processedWellFormed stp → processedWellFormed st1)) :
    ∀ (props : List ClassProperty) (st : RState) (acc : List LocalElem)
      (st' : RState) (out : List LocalElem),
      foldProps step props st acc = some (.ok (st', out)) →
      (∃ l, st'.processedCustomTypes = st.processedCustomTypes ++ l) ∧
      (processedWellFormed st → processedWellFormed st') := by
  intro props
  induction props with
  | nil =>
    intro st acc st' out h
    simp only [foldProps] at h
    cases h
    exact ⟨⟨[], by simp⟩, id⟩
  | cons p ps ih =>
    intro st acc st' out h
    simp only [foldProps] at h
    cases hs : step p st with
    | none => rw [hs] at h; cases h
    | some r =>
      rw [hs] at h
      cases r with
      | error e => cases h
      | ok pr =>
        obtain ⟨st1, ls1⟩ := pr
        obtain ⟨⟨l1, hl1⟩, hwf1⟩ := hstep p st st1 ls1 hs
        obtain ⟨⟨l2, hl2⟩, hwf2⟩ := ih st1 (acc ++ ls1) st' out h
        exact ⟨⟨l1 ++ l2, by rw [hl2, hl1, List.append_assoc]⟩, fun hw => hwf2 (hwf1 hw)⟩

/-- Main state-evolution lemma for the lowerer: a successful run only
appends to `processedCustomTypes` (the map is monotone — a binding once
set is never rewritten) and preserves the name-allocation invariant. -/
theorem renderTypesFuel_processed (g : TGraph) :
    ∀ (fuel ref : Nat) (st : RState) (prefixes : List String) (key : String)
      (attrs : ElemAttrs) (ce isRoot : Bool) (st' : RState) (ls : List LocalElem),
      renderTypesFuel g fuel ref st prefixes key attrs ce isRoot = some (.ok (st', ls)) →
      (∃ l, st'.processedCustomTypes = st.processedCustomTypes ++ l) ∧
      (processedWellFormed st → processedWellFormed st') := by
  intro fuel
  induction fuel with
  | zero => intro ref st prefixes key attrs ce isRoot st' ls h; cases h
  | succ fuel ih =>
    intro ref st prefixes key attrs ce isRoot st' ls h
    cases hnode : lookupNode g ref with
    | none => simp [renderTypesFuel, hnode] at h
    | some node =>
      cases node with
      | noneT =>
        simp only [renderTypesFuel, hnode] at h
        cases h; exact ⟨⟨[], by simp⟩, id⟩
      | anyT =>
        simp only [renderTypesFuel, hnode] at h
        cases h; exact ⟨⟨[], by simp⟩, id⟩
      | mapT =>
        simp only [renderTypesFuel, hnode] at h
        cases h; exact ⟨⟨[], by simp⟩, id⟩
      | objectT =>
        simp only [renderTypesFuel, hnode] at h
        cases h; exact ⟨⟨[], by simp⟩, id⟩
      | enumT =>
        simp only [renderTypesFuel, hnode] at h
        cases h; exact ⟨⟨[], by simp⟩, id⟩
      | nullT =>
        simp only [renderTypesFuel, hnode] at h
        cases h; exact ⟨⟨[], by simp⟩, id⟩
      | boolT =>
        simp only [renderTypesFuel, hnode] at h
        cases h; exact ⟨⟨[], by simp⟩, id⟩
      | integerT =>
        simp only [renderTypesFuel, hnode] at h
        cases h; exact ⟨⟨[], by simp⟩, id⟩
      | doubleT =>
        simp only [renderTypesFuel, hnode] at h
        cases h; exact ⟨⟨[], by simp⟩, id⟩
      | stringT =>
        simp only [renderTypesFuel, hnode] at h
        cases h; exact ⟨⟨[], by simp⟩, id⟩
      | transformedT k =>
        simp only [renderTypesFuel, hnode] at h
        split at h
        · split at h
          · cases h
          · cases h; exact ⟨⟨[], by simp⟩, id⟩
        · cases h; exact ⟨⟨[], by simp⟩, id⟩
      | arrayT itemsRef =>
        simp only [renderTypesFuel, hnode] at h
        cases hproc : alookup st.processedCustomTypes ref with
        | some ty =>
          simp only [hproc] at h
          cases h
          refine ⟨⟨[], by simp [recordElement_processed]⟩, fun hw => ?_⟩
          simpa only [processedWellFormed, recordElement_processed] using hw
        | none =>
          simp only [hproc] at h
          split at h
          · cases h
          · cases h
          · rename_i st3 ls3 heq
            cases h
            obtain ⟨⟨l, hl⟩, hwf⟩ := ih _ _ _ _ _ _ _ _ _ heq
            constructor
            · refine ⟨(ref, "complexType" ++ toString (st.processedCustomTypes.length + 1)) ::
                l, ?_⟩
              simp only [hl, recordElement_processed]
              simp
            · intro hw
              simp only [processedWellFormed] at hwf hw ⊢
              apply hwf
              simp only [recordElement_processed]
              exact processedWellFormed_snoc st.processedCustomTypes ref hw
      | classT props =>
        simp only [renderTypesFuel, hnode] at h
        cases hproc : alookup st.processedCustomTypes ref with
        | some ty =>
          simp only [hproc] at h
          cases h
          refine ⟨⟨[], by simp [recordElement_processed]⟩, fun hw => ?_⟩
          simpa only [processedWellFormed, recordElement_processed] using hw
        | none =>
          simp only [hproc] at h
          split at h
          · cases h
          · cases h
          · rename_i st3 ls3 heq
            cases h
            obtain ⟨⟨l, hl⟩, hwf⟩ := foldProps_processed _
              (fun p stp st1 ls1 hs => ih _ _ _ _ _ _ _ _ _ hs)
              props _ [] st3 ls3 heq
            constructor
            · refine ⟨(ref, "complexType" ++ toString (st.processedCustomTypes.length + 1)) ::
                l, ?_⟩
              simp only [hl, recordElement_processed]
              simp
            · intro hw
              simp only [processedWellFormed] at hwf hw ⊢
              apply hwf
              simp only [recordElement_processed]
              exact processedWellFormed_snoc st.processedCustomTypes ref hw
      | unionT memberKinds =>
        simp only [renderTypesFuel, hnode] at h
        cases hproc : alookup st.processedCustomTypes ref with
        | some ty =>
          simp only [hproc] at h
          cases h
          refine ⟨⟨[], by simp [recordElement_processed]⟩, fun hw => ?_⟩
          simpa only [processedWellFormed, recordElement_processed] using hw
        | none =>
          simp only [hproc] at h
          split at h
          · cases h
          · rename_i bases heq
            cases h
            constructor
            · refine ⟨[(ref, "complexType" ++ toString (st.processedCustomTypes.length + 1))], ?_⟩
              simp [recordElement_processed]
            · intro hw
              simp only [processedWellFormed, recordElement_processed]
              exact processedWellFormed_snoc st.processedCustomTypes ref hw

/-- Pointwise monotone predicates give monotone counts. -/
theorem countP_le_countP {α : Type} (p q : α → Bool) :
    ∀ l : List α, (∀ a ∈ l, p a = true → q a = true) → l.countP p ≤ l.countP q := by
  intro l
  induction l with
  | nil => simp
  | cons a t ih =>
    intro h
    have ht := ih (fun b hb => h b (List.mem_cons_of_mem _ hb))
    rw [List.countP_cons, List.countP_cons]
    by_cases hpa : p a = true
    · have hqa := h a (List.mem_cons_self _ _) hpa
      rw [if_pos hpa, if_pos hqa]
      omega
    · rw [if_neg hpa]
      split <;> omega

/-- A strict count decrease at a flipped element. -/
theorem countP_lt_countP {α : Type} (p q : α → Bool) (l : List α) (a : α)
    (ha : a ∈ l) (hmono : ∀ b ∈ l, p b = true → q b = true)
    (hpa : p a = false) (hqa : q a = true) : l.countP p < l.countP q := by
  obtain ⟨s, t, rfl⟩ := List.append_of_mem ha
  have h1 := countP_le_countP p q s (fun b hb => hmono b (by simp [hb]))
  have h2 := countP_le_countP p q t (fun b hb => hmono b (by simp [hb]))
  rw [List.countP_append, List.countP_append, List.countP_cons, List.countP_cons,
      if_neg (by simp [hpa]), if_pos hqa]
  omega

/-- Number of type references of the graph not yet in the processed map:
the measure that makes the cycle guard terminate. -/
def unprocessedCount (g : TGraph) (st : RState) : Nat :=
  (g.nodes.map Prod.fst).dedup.countP fun ref =>
    (alookup st.processedCustomTypes ref).isNone

/-- Extending the processed map can only shrink the measure. -/
theorem unprocessedCount_le (g : TGraph) (st st' : RState)
    (h : ∃ l, st'.processedCustomTypes = st.processedCustomTypes ++ l) :
    unprocessedCount g st' ≤ unprocessedCount g st := by
  obtain ⟨l, hl⟩ := h
  apply countP_le_countP
  intro a _ hp
  cases halook : alookup st.processedCustomTypes a with
  | none => simp [halook]
  | some v =>
    rw [hl, alookup_append_some l halook] at hp
    cases hp

/-- Inserting an unprocessed reference of the graph strictly shrinks the
measure. -/
theorem unprocessedCount_insert_lt (g : TGraph) (st st2 : RState) (ref : Nat)
    (name : String) (nd : TypeNode)
    (hst2 : st2.processedCustomTypes = st.processedCustomTypes ++ [(ref, name)])
    (hnode : lookupNode g ref = some nd)
    (hproc : alookup st.processedCustomTypes ref = Option.none) :
    unprocessedCount g st2 < unprocessedCount g st := by
  have hmem : ref ∈ (g.nodes.map Prod.fst).dedup := by
    rw [List.mem_dedup]
    by_contra hne
    rw [← alookup_eq_none_iff g.nodes ref] at hne
    rw [lookupNode, hne] at hnode
    cases hnode
  apply countP_lt_countP _ _ _ ref hmem
  · intro b _ hp
    cases halook : alookup st.processedCustomTypes b with
    | none => simp [halook]
    | some v =>
      rw [hst2, alookup_append_some _ halook] at hp
      cases hp
  · rw [hst2, alookup_append_none _ hproc]
    simp [alookup]
  · simp [hproc]

/-- The property fold cannot exhaust fuel when every step is safe below
the bound and steps never grow the measure. -/
theorem foldProps_ne_none (g : TGraph)
    (step : ClassProperty → RState → Option (Except String (RState × List LocalElem)))
    (bound : Nat)
    (hmono : ∀ p stp st1 ls1, step p stp = some (.ok (st1, ls1)) →
      unprocessedCount g st1 ≤ unprocessedCount g stp)
    (hstep : ∀ p stp, unprocessedCount g stp < bound → step p stp ≠ Option.none) :
    ∀ (props : List ClassProperty) (st : RState) (acc : List LocalElem),
      unprocessedCount g st < bound →
      foldProps step props st acc ≠ Option.none := by
  intro props
  induction props with
  | nil => intro st acc hb; simp [foldProps]
  | cons p ps ih =>
    intro st acc hb
    simp only [foldProps]
    cases hs : step p st with
    | none => exact absurd hs (hstep p st hb)
    | some r =>
      cases r with
      | error e => simp
      | ok pr =>
        obtain ⟨st1, ls1⟩ := pr
        exact ih st1 (acc ++ ls1) (lt_of_le_of_lt (hmono p st st1 ls1 hs) hb)

/-- Fuel sufficiency for the lowerer: any fuel exceeding the number of
unprocessed graph references suffices — the recursion always terminates
because every descent first inserts a fresh reference into the processed
map. -/
theorem renderTypesFuel_total (g : TGraph) :
    ∀ (fuel ref : Nat) (st : RState) (prefixes : List String) (key : String)
      (attrs : ElemAttrs) (ce isRoot : Bool),
      unprocessedCount g st < fuel →
      renderTypesFuel g fuel ref st prefixes key attrs ce isRoot ≠ Option.none := by
  intro fuel
  induction fuel with
  | zero =>
    intro ref st prefixes key attrs ce isRoot h
    exact absurd h (Nat.not_lt_zero _)
  | succ fuel ih =>
    intro ref st prefixes key attrs ce isRoot hb
    cases hnode : lookupNode g ref with
    | none => simp [renderTypesFuel, hnode]
    | some node =>
      cases node with
      | noneT => simp [renderTypesFuel, hnode]
      | anyT => simp [renderTypesFuel, hnode]
      | mapT => simp [renderTypesFuel, hnode]
      | objectT => simp [renderTypesFuel, hnode]
      | enumT => simp [renderTypesFuel, hnode]
      | nullT => simp [renderTypesFuel, hnode]
      | boolT => simp [renderTypesFuel, hnode]
      | integerT => simp [renderTypesFuel, hnode]
      | doubleT => simp [renderTypesFuel, hnode]
      | stringT => simp [renderTypesFuel, hnode]
      | transformedT k =>
        simp only [renderTypesFuel, hnode]
        split
        · split <;> simp
        · simp
      | arrayT itemsRef =>
        simp only [renderTypesFuel, hnode]
        cases hproc : alookup st.processedCustomTypes ref with
        | some ty => simp [hproc]
        | none =>
          simp only [hproc]
          split
          · rename_i heq
            refine absurd heq (ih _ _ _ _ _ _ _ ?_)
            refine Nat.lt_of_lt_of_le
              (unprocessedCount_insert_lt g st _ ref
                ("complexType" ++ toString (st.processedCustomTypes.length + 1))
                (.arrayT itemsRef) ?_ hnode hproc) (by omega)
            simp [recordElement_processed]
          · simp
          · simp
      | classT props =>
        simp only [renderTypesFuel, hnode]
        cases hproc : alookup st.processedCustomTypes ref with
        | some ty => simp [hproc]
        | none =>
          simp only [hproc]
          split
          · rename_i heq
            refine absurd heq (foldProps_ne_none g _ fuel ?_ ?_ props _ [] ?_)
            · intro p stp st1 ls1 hs
              exact unprocessedCount_le g stp st1
                (renderTypesFuel_processed g fuel _ stp _ _ _ _ _ st1 ls1 hs).1
            · intro p stp hlt2
              exact ih _ _ _ _ _ _ _ hlt2
            · refine Nat.lt_of_lt_of_le
                (unprocessedCount_insert_lt g st _ ref
                  ("complexType" ++ toString (st.processedCustomTypes.length + 1))
                  (.classT props) ?_ hnode hproc) (by omega)
              simp [recordElement_processed]
          · simp
          · simp
      | unionT memberKinds =>
        simp only [renderTypesFuel, hnode]
        cases hproc : alookup st.processedCustomTypes ref with
        | some ty => simp [hproc]
        | none =>
          simp only [hproc]
          split <;> simp

/-- The kinds handled by `renderArray`/`renderClass`/`renderUnion` — those
that use the processed-typeref memoization. -/
def isCompositeNode : TypeNode → Bool
  | .arrayT _ | .classT _ | .unionT _ => true
  | _ => false

/-- C4: type lowering terminates on every type graph, cyclic ones
included — any fuel exceeding the number of unprocessed graph references
is enough (first conjunct), because `processedCustomTypes` is consulted
before recursion; and on a memoization hit the call emits only a
referencing `<element>` carrying the existing type name (none at the
schema root), recording at most an element entry: the processed map and
the root definitions are untouched and the type is not re-descended
(second conjunct). -/
theorem c4_renderTypes_terminates :
    (∀ (g : TGraph) (fuel ref : Nat) (st : RState) (prefixes : List String) (key : String)
      (attrs : ElemAttrs) (ce isRoot : Bool),
      unprocessedCount g st < fuel →
      renderTypesFuel g fuel ref st prefixes key attrs ce isRoot ≠ Option.none) ∧
    (∀ (g : TGraph) (fuel ref : Nat) (st : RState) (prefixes : List String) (key : String)
      (attrs : ElemAttrs) (ce isRoot : Bool) (node : TypeNode) (ty : String),
      lookupNode g ref = some node → isCompositeNode node = true →
      alookup st.processedCustomTypes ref = some ty →
      ∃ st', renderTypesFuel g (fuel + 1) ref st prefixes key attrs ce isRoot =
          some (.ok (st', if isRoot then [] else [⟨key, ty, attrs⟩])) ∧
        st'.processedCustomTypes = st.processedCustomTypes ∧
        st'.rootDefs = st.rootDefs) := by
  constructor
  · exact fun g => renderTypesFuel_total g
  · intro g fuel ref st prefixes key attrs ce isRoot node ty hnode hcomp hproc
    refine ⟨recordElement st key ref prefixes ce (some ty), ?_,
      recordElement_processed st key ref prefixes ce (some ty),
      recordElement_rootDefs st key ref prefixes ce (some ty)⟩
    cases node with
    | arrayT itemsRef => simp [renderTypesFuel, hnode, hproc]
    | classT props => simp [renderTypesFuel, hnode, hproc]
    | unionT memberKinds => simp [renderTypesFuel, hnode, hproc]
    | nullT => cases hcomp
    | boolT => cases hcomp
    | integerT => cases hcomp
    | doubleT => cases hcomp
    | stringT => cases hcomp
    | transformedT k => cases hcomp
    | noneT => cases hcomp
    | anyT => cases hcomp
    | mapT => cases hcomp
    | objectT => cases hcomp
    | enumT => cases hcomp

/-- A minimal cyclic graph: a class whose single property is the class
itself. -/
def gcyc : TGraph := ⟨[(0, .classT [⟨"self", 0, false⟩])]⟩

/-- C4 witness: on the cyclic graph, fuel 2 (one more than the single
unprocessed reference) completes, and a second visit of the processed
class reference emits only the referencing element. -/
theorem c4_renderTypes_terminates_witness :
    (renderTypesFuel gcyc 2 0 initState [] "Root" noAttrs true true ≠ Option.none) ∧
    (∃ st', renderTypesFuel gcyc 1 0 ⟨[(0, "complexType1")], [], []⟩ ["Root"] "self"
        noAttrs true false =
        some (.ok (st', [⟨"self", "complexType1", noAttrs⟩])) ∧
      st'.processedCustomTypes = (⟨[(0, "complexType1")], [], []⟩ : RState).processedCustomTypes ∧
      st'.rootDefs = (⟨[(0, "complexType1")], [], []⟩ : RState).rootDefs) :=
  ⟨c4_renderTypes_terminates.1 gcyc 2 0 initState [] "Root" noAttrs true true (by decide),
    by
      have h := c4_renderTypes_terminates.2 gcyc 0 0 ⟨[(0, "complexType1")], [], []⟩ ["Root"]
        "self" noAttrs true false (.classT [⟨"self", 0, false⟩]) "complexType1" rfl rfl rfl
      simpa using h⟩

/-- C3: every type reference of composite kind that a successful run
assigns a name receives exactly one name of the form `complexType(i+1)`
where `i` is its insertion position (visit order) — `processedWellFormed`;
the map is never rewritten for a key once set (existing bindings persist,
and the list only ever grows by appends); and distinct references always
receive distinct names. -/
theorem c3_complexType_names :
    ∀ (g : TGraph) (fuel ref : Nat) (st : RState) (prefixes : List String) (key : String)
      (attrs : ElemAttrs) (ce isRoot : Bool) (st' : RState) (ls : List LocalElem),
      renderTypesFuel g fuel ref st prefixes key attrs ce isRoot = some (.ok (st', ls)) →
      processedWellFormed st →
      processedWellFormed st' ∧
      (∃ l, st'.processedCustomTypes = st.processedCustomTypes ++ l) ∧
      (∀ r n, alookup st.processedCustomTypes r = some n →
        alookup st'.processedCustomTypes r = some n) ∧
      (∀ r1 n1 r2 n2, r1 ≠ r2 →
        alookup st'.processedCustomTypes r1 = some n1 →
        alookup st'.processedCustomTypes r2 = some n2 → n1 ≠ n2) := by
  intro g fuel ref st prefixes key attrs ce isRoot st' ls h hwf
  obtain ⟨⟨l, hl⟩, hpres⟩ :=
    renderTypesFuel_processed g fuel ref st prefixes key attrs ce isRoot st' ls h
  have hwf' := hpres hwf
  refine ⟨hwf', ⟨l, hl⟩, ?_, ?_⟩
  · intro r n hr
    rw [hl]
    exact alookup_append_some l hr
  · intro r1 n1 r2 n2 hne h1 h2 heq
    obtain ⟨i, hi, hgi⟩ := alookup_get _ _ _ h1
    obtain ⟨j, hj, hgj⟩ := alookup_get _ _ _ h2
    have hni : n1 = "complexType" ++ toString (i + 1) := by
      have hx := hwf' i hi
      rw [hgi] at hx
      exact hx
    have hnj : n2 = "complexType" ++ toString (j + 1) := by
      have hx := hwf' j hj
      rw [hgj] at hx
      exact hx
    have hij : i = j := by
      have hsum : i + 1 = j + 1 := complexTypeName_inj _ _ (by rw [← hni, ← hnj, heq])
      omega
    subst hij
    rw [hgi] at hgj
    cases hgj
    exact hne rfl

/-- The type graph `Root(xs: array of K1, xsItem: K2)` with
`K1 = class(p: C1)`, `K2 = class(p: C2)`, `C1 = class(u: integer)`,
`C2 = class(v: integer)`.  The distinct classes `C1` and `C2` are both
recorded under the element tag `p`, and — because `K1` is reached as an
array item (which extends no prefix) while `K2` is the property named
like that item tag — with identical prefix chains. -/
def gC2 : TGraph := ⟨[
  (0, .classT [⟨"xs", 1, false⟩, ⟨"xsItem", 3, false⟩]),
  (1, .arrayT 2),
  (2, .classT [⟨"p", 4, false⟩]),
  (3, .classT [⟨"p", 5, false⟩]),
  (4, .classT [⟨"u", 6, false⟩]),
  (5, .classT [⟨"v", 6, false⟩]),
  (6, .integerT)]⟩

/-- The renderer state produced by lowering `gC2` from the top level. -/
def stC2 : RState :=
  ⟨[(0, "complexType1"), (1, "complexType2"), (2, "complexType3"),
    (4, "complexType4"), (3, "complexType5"), (5, "complexType6")],
   [("Root", [⟨0, []⟩]),
    ("xs", [⟨1, ["Root"]⟩]),
    ("p", [⟨4, ["xsItem", "RootXsItem"]⟩, ⟨5, ["xsItem", "RootXsItem"]⟩]),
    ("xsItem", [⟨3, ["Root"]⟩])],
   [.complexClass "complexType4" [⟨"u", "xsd:integer", ⟨false, false⟩⟩],
    .complexClass "complexType3" [⟨"p", "complexType4", ⟨false, false⟩⟩],
    .complexArray "complexType2" [⟨"xsItem", "complexType3", ⟨true, true⟩⟩],
    .complexClass "complexType6" [⟨"v", "xsd:integer", ⟨false, false⟩⟩],
    .complexClass "complexType5" [⟨"p", "complexType6", ⟨false, false⟩⟩],
    .complexClass "complexType1" [⟨"xs", "complexType2", ⟨false, false⟩⟩,
      ⟨"xsItem", "complexType5", ⟨false, false⟩⟩]]⟩

/-- C3 witness: the name-allocation facts instantiated on the lowering of
`gC2` from the fresh state. -/
theorem c3_complexType_names_witness :
    processedWellFormed stC2 ∧
    (∃ l, stC2.processedCustomTypes = initState.processedCustomTypes ++ l) ∧
    (∀ r n, alookup initState.processedCustomTypes r = some n →
      alookup stC2.processedCustomTypes r = some n) ∧
    (∀ r1 n1 r2 n2, r1 ≠ r2 →
      alookup stC2.processedCustomTypes r1 = some n1 →
      alookup stC2.processedCustomTypes r2 = some n2 → n1 ≠ n2) :=
  c3_complexType_names gC2 20 0 initState [] "Root" noAttrs true true stC2 [] rfl
    (fun i h => absurd h (by simp [initState]))

/-- When two entries recorded under a tag carry identical prefix chains,
every iteration of the disambiguation loop produces colliding candidate
names and fails. -/
theorem attemptAt_same_chain (key : String) (r1 r2 : Nat) (ch : List String) (i : Nat) :
    attemptAt key [⟨r1, ch⟩, ⟨r2, ch⟩] i = Option.none := by
  simp [attemptAt, alookup]

/-- Hence the `do … while` loop of `renderElements` never succeeds on
such a pair, whatever the fuel and the starting index: the source loops
forever. -/
theorem resolveTagFuel_same_chain_none (key : String) (r1 r2 : Nat) (ch : List String) :
    ∀ (fuel i : Nat),
      resolveTagFuel key [⟨r1, ch⟩, ⟨r2, ch⟩] fuel i = Option.none := by
  intro fuel
  induction fuel with
  | zero => intro i; rfl
  | succ f ih =>
    intro i
    simp [resolveTagFuel, attemptAt_same_chain, ih]

/-- C2 failing input: lowering `gC2` records the element tag `p` with two
distinct type references (4 and 5) whose prefix chains are identical, and
on that state `renderElements` never terminates — every prefix index
yields the same candidate name for both entries, so the
`do … while (!success)` loop runs forever (here: returns `none` at every
fuel) instead of emitting two declarations. -/
theorem c2_renderElements_diverges :
    renderTypesFuel gC2 20 0 initState [] "Root" noAttrs true true =
      some (.ok (stC2, [])) ∧
    alookup stC2.typeRefsByElementName "p" =
      some [⟨4, ["xsItem", "RootXsItem"]⟩, ⟨5, ["xsItem", "RootXsItem"]⟩] ∧
    (4 : Nat) ≠ 5 ∧
    (∀ fuel, renderElements fuel stC2 = Option.none) := by
  refine ⟨rfl, rfl, by decide, ?_⟩
  intro fuel
  have h := resolveTagFuel_same_chain_none "p" 4 5 ["xsItem", "RootXsItem"] fuel 0
  simp [renderElements, stC2, renderElementsGo, resolveTag, renderAssoc, alookup, h]

/-- Whether a node produces any local `<element>` when rendered: true for
the primitive render callbacks and the composite kinds, false for the
kinds whose `matchTypeExhaustive` callback is `null`
(`none`/`any`/`map`/`object`/`enum`) and for a transformed string whose
kind fails `isPrimitiveStringTypeKind` (the early `return` of
`renderTransformedString`). -/
def renderableNode : TypeNode → Bool
  | .nullT | .boolT | .integerT | .doubleT | .stringT => true
  | .transformedT k => isPrimitiveStringTypeKind k
  | .arrayT _ | .classT _ | .unionT _ => true
  | .noneT | .anyT | .mapT | .objectT | .enumT => false

/-- `renderableNode` through a type reference (dangling references render
nothing but fail the run anyway). -/
def renderableAt (g : TGraph) (ref : Nat) : Bool :=
  match lookupNode g ref with
  | some nd => renderableNode nd
  | Option.none => false

/-- Shape of the local elements a successful non-root child render call
appends to its caller: exactly one element named by the key and carrying
the threaded attributes when the child type is renderable, none
otherwise. -/
theorem renderTypesFuel_child_locals (g : TGraph) (fuel ref : Nat) (st : RState)
    (prefixes : List String) (key : String) (attrs : ElemAttrs) (ce : Bool)
    (st' : RState) (ls : List LocalElem)
    (h : renderTypesFuel g (fuel + 1) ref st prefixes key attrs ce false =
      some (.ok (st', ls))) :
    ls.map (fun e => (e.name, e.attrs)) =
      if renderableAt g ref then [(key, attrs)] else [] := by
  cases hnode : lookupNode g ref with
  | none => simp only [renderTypesFuel, hnode] at h; simp at h
  | some node =>
    cases node with
    | noneT =>
      simp only [renderTypesFuel, hnode] at h
      cases h; simp [renderableAt, hnode, renderableNode]
    | anyT =>
      simp only [renderTypesFuel, hnode] at h
      cases h; simp [renderableAt, hnode, renderableNode]
    | mapT =>
      simp only [renderTypesFuel, hnode] at h
      cases h; simp [renderableAt, hnode, renderableNode]
    | objectT =>
      simp only [renderTypesFuel, hnode] at h
      cases h; simp [renderableAt, hnode, renderableNode]
    | enumT =>
      simp only [renderTypesFuel, hnode] at h
      cases h; simp [renderableAt, hnode, renderableNode]
    | nullT =>
      simp only [renderTypesFuel, hnode] at h
      cases h; simp [renderableAt, hnode, renderableNode]
    | boolT =>
      simp only [renderTypesFuel, hnode] at h
      cases h; simp [renderableAt, hnode, renderableNode]
    | integerT =>
      simp only [renderTypesFuel, hnode] at h
      cases h; simp [renderableAt, hnode, renderableNode]
    | doubleT =>
      simp only [renderTypesFuel, hnode] at h
      cases h; simp [renderableAt, hnode, renderableNode]
    | stringT =>
      simp only [renderTypesFuel, hnode] at h
      cases h; simp [renderableAt, hnode, renderableNode]
    | transformedT k =>
      simp only [renderTypesFuel, hnode] at h
      split at h
      · rename_i hk
        split at h
        · simp at h
        · cases h; simp [renderableAt, hnode, renderableNode, hk]
      · rename_i hk
        cases h
        simp only [renderableAt, hnode, renderableNode]
        rw [if_neg (by simpa using hk)]
        simp
    | arrayT itemsRef =>
      simp only [renderTypesFuel, hnode] at h
      cases hproc : alookup st.processedCustomTypes ref with
      | some ty =>
        simp only [hproc] at h
        cases h; simp [renderableAt, hnode, renderableNode]
      | none =>
        simp only [hproc] at h
        split at h
        · cases h
        · cases h
        · rename_i st3 ls3 heq
          cases h; simp [renderableAt, hnode, renderableNode]
    | classT props =>
      simp only [renderTypesFuel, hnode] at h
      cases hproc : alookup st.processedCustomTypes ref with
      | some ty =>
        simp only [hproc] at h
        cases h; simp [renderableAt, hnode, renderableNode]
      | none =>
        simp only [hproc] at h
        split at h
        · cases h
        · cases h
        · rename_i st3 ls3 heq
          cases h; simp [renderableAt, hnode, renderableNode]
    | unionT memberKinds =>
      simp only [renderTypesFuel, hnode] at h
      cases hproc : alookup st.processedCustomTypes ref with
      | some ty =>
        simp only [hproc] at h
        cases h; simp [renderableAt, hnode, renderableNode]
      | none =>
        simp only [hproc] at h
        split at h
        · cases h
        · rename_i bases heq
          cases h; simp [renderableAt, hnode, renderableNode]

/-- The `<all>` children accumulated by the property fold: one element per
renderable property, in declaration order, named by the property and
optional exactly when the property is. -/
theorem foldProps_children (g : TGraph) (fuel : Nat) (newPrefixes : List String) :
    ∀ (props : List ClassProperty) (st : RState) (acc : List LocalElem)
      (st' : RState) (out : List LocalElem),
      foldProps (fun p stp => renderTypesFuel g fuel p.typeRef stp newPrefixes p.name
        ⟨p.isOptional, false⟩ true false) props st acc = some (.ok (st', out)) →
      out.map (fun e => (e.name, e.attrs.minOccurs0)) =
        acc.map (fun e => (e.name, e.attrs.minOccurs0)) ++
          (props.filter fun p => renderableAt g p.typeRef).map
            (fun p => (p.name, p.isOptional)) := by
  intro props
  induction props with
  | nil =>
    intro st acc st' out h
    simp only [foldProps] at h
    cases h
    simp
  | cons p ps ih =>
    intro st acc st' out h
    simp only [foldProps] at h
    cases fuel with
    | zero => simp only [renderTypesFuel] at h; cases h
    | succ f =>
      cases hs : renderTypesFuel g (f + 1) p.typeRef st newPrefixes p.name
          ⟨p.isOptional, false⟩ true false with
      | none => rw [hs] at h; cases h
      | some r =>
        rw [hs] at h
        cases r with
        | error e => cases h
        | ok pr =>
          obtain ⟨st1, ls1⟩ := pr
          have hls1 := renderTypesFuel_child_locals g f p.typeRef st newPrefixes p.name
            ⟨p.isOptional, false⟩ true st1 ls1 hs
          have hrest := ih st1 (acc ++ ls1) st' out h
          have hproj : ls1.map (fun e => (e.name, e.attrs.minOccurs0)) =
              if renderableAt g p.typeRef then [(p.name, p.isOptional)] else [] := by
            have hcomp := congrArg
              (List.map (fun q : String × ElemAttrs => (q.1, q.2.minOccurs0))) hls1
            rw [List.map_map] at hcomp
            by_cases hr : renderableAt g p.typeRef
            · simp only [hr, if_true] at hcomp ⊢
              simpa using hcomp
            · simp only [renderableAt] at hr
              simp only [Bool.not_eq_true] at hr
              simp only [renderableAt, hr] at hcomp ⊢
              simpa using hcomp
          rw [hrest, List.map_append, hproj, List.filter_cons]
          by_cases hr : renderableAt g p.typeRef
          · simp [hr, List.append_assoc]
          · simp [hr]

/-- A class whose single property has kind `any` (whose render callback
is `null`). -/
def gC5 : TGraph := ⟨[(0, .classT [⟨"a", 1, false⟩]), (1, .anyT)]⟩

/-- C5 counterexample input: lowering the class with the single property
`a` of kind `any` emits the named complex type with an *empty* `<all>` —
no `<xsd:element>` at all for the property — although the claim demands
exactly one element per property of the source class. -/
theorem c5_counterexample :
    renderTypesFuel gC5 3 0 initState [] "Root" noAttrs true true =
      some (.ok (⟨[(0, "complexType1")], [("Root", [⟨0, []⟩])],
        [.complexClass "complexType1" []]⟩, [])) ∧
    lookupNode gC5 0 = some (.classT [⟨"a", 1, false⟩]) :=
  ⟨rfl, rfl⟩

/-- C5 (amended): for every class type lowered by `renderClass` on a
first encounter, the emitted named complex type's `<all>` contains
exactly one `<xsd:element>` per *renderable* property of the source class
(kinds `none`/`any`/`map`/`object`/`enum` and non-string transformed
kinds emit nothing), in declaration order, each named by the property and
carrying `minOccurs="0"` exactly when the property is optional; a class
with no properties emits an empty `<all/>`. -/
theorem c5_renderClass_all_children :
    ∀ (g : TGraph) (fuel ref : Nat) (st : RState) (prefixes : List String) (key : String)
      (attrs : ElemAttrs) (ce isRoot : Bool) (props : List ClassProperty)
      (st' : RState) (ls : List LocalElem),
      lookupNode g ref = some (.classT props) →
      alookup st.processedCustomTypes ref = Option.none →
      renderTypesFuel g (fuel + 1) ref st prefixes key attrs ce isRoot =
        some (.ok (st', ls)) →
      ∃ children,
        RootDef.complexClass
          ("complexType" ++ toString (st.processedCustomTypes.length + 1)) children ∈
          st'.rootDefs ∧
        children.map (fun e => (e.name, e.attrs.minOccurs0)) =
          (props.filter fun p => renderableAt g p.typeRef).map
            (fun p => (p.name, p.isOptional)) := by
  intro g fuel ref st prefixes key attrs ce isRoot props st' ls hnode hproc h
  simp only [renderTypesFuel, hnode, hproc] at h
  split at h
  · cases h
  · cases h
  · rename_i st3 ls3 heq
    cases h
    refine ⟨ls3, by simp, ?_⟩
    have hch := foldProps_children g fuel
      (key :: prefixes.map (fun p => p ++ titleCase key)) props _ [] st3 ls3 heq
    simpa using hch

/-- A class with an optional integer property and a property of kind
`any`. -/
def gW5 : TGraph :=
  ⟨[(0, .classT [⟨"a", 1, true⟩, ⟨"b", 2, false⟩]), (1, .integerT), (2, .anyT)]⟩

/-- C5 witness: on `gW5` the emitted `<all>` holds exactly the element
for the renderable optional property `a` with `minOccurs="0"`. -/
theorem c5_renderClass_all_children_witness :
    ∃ children,
      RootDef.complexClass
        ("complexType" ++ toString (initState.processedCustomTypes.length + 1)) children ∈
        (⟨[(0, "complexType1")], [("Root", [⟨0, []⟩])],
          [RootDef.complexClass "complexType1"
            [⟨"a", "xsd:integer", ⟨true, false⟩⟩]]⟩ : RState).rootDefs ∧
      children.map (fun e => (e.name, e.attrs.minOccurs0)) =
        ([⟨"a", 1, true⟩, ⟨"b", 2, false⟩].filter
          fun p : ClassProperty => renderableAt gW5 p.typeRef).map
            (fun p => (p.name, p.isOptional)) :=
  c5_renderClass_all_children gW5 2 0 initState [] "Root" noAttrs true true
    [⟨"a", 1, true⟩, ⟨"b", 2, false⟩] _ [] rfl rfl rfl
